import Mathlib

/-!
Verification development for the vite2next entry-point synthesis engine.

The definitions below are shallow embeddings of the JavaScript source:
* `src/entrypoint.js` (component locator, catch-all / direct / fallback pages),
* the root-layout creator driven by an `index.html` template (metadata
  extraction via a DOM view of the parsed document),
* the per-CSS-framework root-layout creator and its path resolver.

Strings are modelled through their character lists (faithful for the ASCII
texts the tool manipulates).  File-system state is an association list from
path strings to file contents; directory existence and the results of
directory traversal (`glob`, `readdir`) enter as explicit parameters, and
external throwing operations are modelled with `Option`/`Except`.
-/

set_option maxRecDepth 8192

namespace V2N

/-- `p.data.isPrefixOf s.data`: models JavaScript `s.startsWith(p)`. -/
def strStarts (s p : String) : Bool := p.data.isPrefixOf s.data

/-- models JavaScript `s.endsWith(p)` (and anchored `$` regex suffix tests). -/
def strEnds (s p : String) : Bool := p.data.isSuffixOf s.data

/-- substring search on character lists. -/
def hasSubL (pat : List Char) : List Char → Bool
  | [] => pat.isEmpty
  | c :: cs => pat.isPrefixOf (c :: cs) || hasSubL pat cs

/-- models JavaScript `s.includes(pat)`. -/
def strHas (s pat : String) : Bool := hasSubL pat.data s.data

/-- the whitespace class of JavaScript (`\s`, `trim`) restricted to its ASCII members. -/
def jsIsSpace (c : Char) : Bool :=
  c = ' ' || c = '\t' || c = '\n' || c = '\r' || c = '\x0b' || c = '\x0c'

/-- models JavaScript `s.trim()`. -/
def jsTrim (s : String) : String :=
  ⟨((s.data.dropWhile jsIsSpace).reverse.dropWhile jsIsSpace).reverse⟩

/-- truthiness of a `getAttribute` result: `null` and `""` are falsy. -/
def jsTruthy : Option String → Bool
  | none => false
  | some s => decide (s ≠ "")

/-- models `content.replace(/'/g, "\\'")` from the layout templates. -/
def escSQ (s : String) : String :=
  ⟨s.data.flatMap (fun c => if c = '\'' then ['\\', '\''] else [c])⟩

/-- one character of `JSON.stringify` string escaping (the characters that
occur in the tool's inputs; further control characters are out of scope). -/
def jsonEscChar (c : Char) : List Char :=
  if c = '"' then ['\\', '"']
  else if c = '\\' then ['\\', '\\']
  else if c = '\n' then ['\\', 'n']
  else if c = '\t' then ['\\', 't']
  else if c = '\r' then ['\\', 'r']
  else [c]

/-- models `JSON.stringify` applied to a string. -/
def jsonStr (s : String) : String := "\"" ++ ⟨s.data.flatMap jsonEscChar⟩ ++ "\""

/-- models `s.replace(/\\/g, '/')`. -/
def mapBackslash (s : String) : String :=
  ⟨s.data.map (fun c => if c = '\\' then '/' else c)⟩

/-- drop `n` characters from the right (ASCII view of `s.slice(0, -n)`). -/
def strDropRightL (s : String) (n : Nat) : String := ⟨s.data.take (s.data.length - n)⟩

/-- drop `n` characters from the left (ASCII view of `s.substring(n)`). -/
def strDropL (s : String) (n : Nat) : String := ⟨s.data.drop n⟩

/-- models `s.toLowerCase()` on ASCII text. -/
def toLowerStr (s : String) : String := ⟨s.data.map Char.toLower⟩

/-- models `p.replace(/\.[jt]sx?$/, '')`: strip one trailing script extension. -/
def stripScriptExt (s : String) : String :=
  if strEnds s ".tsx" then strDropRightL s 4
  else if strEnds s ".jsx" then strDropRightL s 4
  else if strEnds s ".ts" then strDropRightL s 3
  else if strEnds s ".js" then strDropRightL s 3
  else s

/-! ## DOM view of the parsed entry document

The tool parses `index.html` with an external HTML parser and then only
reads the pieces below, so the embedding starts from this structure.  The
model assumes the document's `title`/`meta` elements live in its head (for
such documents the source's global and head-scoped selectors agree). -/

/-- one `<meta>` element: the four attributes the source reads. -/
structure MetaTag where
  name : Option String
  property : Option String
  content : Option String
  charset : Option String
deriving Repr, DecidableEq

/-- one `<script>` element in the head. -/
structure ScriptTag where
  src : Option String
  textContent : String
deriving Repr, DecidableEq

/-- the slice of the parsed entry document that the layout creator reads. -/
structure HtmlDoc where
  titleText : Option String
  metas : List MetaTag
  scripts : List ScriptTag
deriving Repr, DecidableEq

/-- models `x || dflt` where `x` is a string-or-null: `null` and `""` fall back. -/
def jsOrDefault (v : Option String) (d : String) : String :=
  match v with
  | some s => if s = "" then d else s
  | none => d

/-- `document.querySelector('title')?.textContent || 'My App'`. -/
def docTitle (doc : HtmlDoc) : String := jsOrDefault doc.titleText "My App"

/-- `document.querySelector('meta[name="description"]')?.getAttribute('content') || '...'`. -/
def docDescription (doc : HtmlDoc) : String :=
  jsOrDefault ((doc.metas.find? (fun m => m.name == some "description")).bind (·.content))
    "My application description"

/-- first line pushed onto `metadataContent`. -/
def titleLine (doc : HtmlDoc) : String := "  title: '" ++ escSQ (docTitle doc) ++ "',"

/-- second line pushed onto `metadataContent`. -/
def descLine (doc : HtmlDoc) : String :=
  "  description: '" ++ escSQ (docDescription doc) ++ "',"

/-- the string pushed for the first `og:image` property. -/
def ogImagePush (c : String) : String :=
  "  openGraph: \x7b\n    images: ['" ++ escSQ c ++ "']\n  \x7d,"

/-- the string pushed for a first non-image `og:` property. -/
def ogOtherPush (ogProp c : String) : String :=
  "  openGraph: \x7b\n    " ++ ogProp ++ ": '" ++ escSQ c ++ "',\n  \x7d,"

/-- `metadataContent.findIndex(line => line.trim().startsWith('openGraph:'))`,
with `none` for `-1`. -/
def findIdxO (p : String → Bool) : List String → Option Nat
  | [] => none
  | x :: xs => if p x then some 0 else (findIdxO p xs).map (· + 1)

def findOgEntry (lines : List String) : Option Nat :=
  findIdxO (fun line => strStarts (jsTrim line) "openGraph:") lines

/-- try the regex `/(\s+openGraph:\s+\{)/` at the head of this suffix,
returning the matched text and the rest on success. -/
def ogBraceAt (cs : List Char) : Option (List Char × List Char) :=
  let w1 := cs.takeWhile jsIsSpace
  if w1.isEmpty then none else
  let r1 := cs.dropWhile jsIsSpace
  if "openGraph:".data.isPrefixOf r1 then
    let r2 := r1.drop 10
    let w2 := r2.takeWhile jsIsSpace
    if w2.isEmpty then none else
    match r2.dropWhile jsIsSpace with
    | '\x7b' :: rest => some (w1 ++ "openGraph:".data ++ w2 ++ ['\x7b'], rest)
    | _ => none
  else none

def replaceOgBraceAux (ins : List Char) : List Char → Option (List Char)
  | [] => none
  | c :: cs =>
    match ogBraceAt (c :: cs) with
    | some (m, rest) => some (m ++ ins ++ rest)
    | none => (replaceOgBraceAux ins cs).map (c :: ·)

/-- models `s.replace(/(\s+openGraph:\s+\{)/, '$1' + ins)` for insertions
free of further `$`-patterns (the generated insertions are built literally
by template strings in the source). -/
def jsReplaceOgBrace (s ins : String) : String :=
  match replaceOgBraceAux ins.data s.data with
  | some r => ⟨r⟩
  | none => s

/-- one iteration of the `for (const meta of metaElements)` loop building
`metadataContent` (source: root-layout creator, meta-processing loop). -/
def processMeta (acc : List String) (m : MetaTag) : List String :=
  if jsTruthy m.charset || m.name == some "viewport" || m.name == some "description" then
    acc
  else if jsTruthy m.name && jsTruthy m.content then
    let n := m.name.getD ""
    let c := m.content.getD ""
    if n = "author" then acc ++ ["  authors: [\x7b name: '" ++ escSQ c ++ "' \x7d],"]
    else acc ++ ["  " ++ n ++ ": '" ++ escSQ c ++ "',"]
  else if jsTruthy m.property && jsTruthy m.content then
    let p := m.property.getD ""
    let c := m.content.getD ""
    if strStarts p "og:" then
      let ogProp := strDropL p 3
      if ogProp = "image" then
        match findOgEntry acc with
        | none => acc ++ [ogImagePush c]
        | some i =>
          let cur := acc.getD i ""
          if strHas cur "images:" then acc
          else acc.set i (jsReplaceOgBrace cur ("\n    images: ['" ++ escSQ c ++ "'],"))
      else
        match findOgEntry acc with
        | none => acc ++ [ogOtherPush ogProp c]
        | some i =>
          let cur := acc.getD i ""
          acc.set i (jsReplaceOgBrace cur ("\n    " ++ ogProp ++ ": '" ++ escSQ c ++ "',"))
    else acc ++ ["  '" ++ p ++ "': '" ++ escSQ c ++ "',"]
  else acc

/-- the full `metadataContent` array after the meta loop. -/
def metadataContent (doc : HtmlDoc) : List String :=
  doc.metas.foldl processMeta [titleLine doc, descLine doc]

/-- the `<Script>` lines collected from head `<script>` elements.  `rng k`
models the value of the `k`-th call of
`Math.random().toString(36).substring(2, 9)` during the run. -/
def scriptLinesAux (rng : Nat → String) : List ScriptTag → Nat → List String
  | [], _ => []
  | s :: rest, k =>
    if jsTruthy s.src then
      ("        <Script src=\"" ++ s.src.getD "" ++ "\" />") :: scriptLinesAux rng rest k
    else if s.textContent ≠ "" then
      ("        <Script id=\"" ++ rng k ++ "\">\x7b" ++ jsonStr s.textContent
          ++ "\x7d</Script>") :: scriptLinesAux rng rest (k + 1)
    else scriptLinesAux rng rest k

def scriptLines (rng : Nat → String) (doc : HtmlDoc) : List String :=
  scriptLinesAux rng doc.scripts 0

/-- the `layout` template string built from a successfully parsed document. -/
def layoutFromDoc (doc : HtmlDoc) (usesTypeScript : Bool) (rng : Nat → String) : String :=
  let scripts := scriptLines rng doc
  let hasScripts := decide (scripts.length > 0)
  (if usesTypeScript then
      "import type \x7b Metadata \x7d from 'next'\n"
        ++ (if hasScripts then "import Script from 'next/script'" else "")
        ++ "\n\nexport const metadata: Metadata = \x7b\n"
        ++ String.intercalate "\n" (metadataContent doc)
        ++ "\n\x7d\n\n"
    else if hasScripts then "import Script from 'next/script'\n\n"
    else "")
    ++ "export default function RootLayout(\x7b\n  children,\n\x7d"
    ++ (if usesTypeScript then ": \x7b\n  children: React.ReactNode\n\x7d" else "")
    ++ ") \x7b\n  return (\n    <html lang=\"en\">\n      <body>\n        <div id=\"root\">\x7bchildren\x7d</div>\n"
    ++ (if hasScripts then String.intercalate "\n" scripts else "")
    ++ "\n      </body>\n    </html>\n  )\n\x7d"

/-- the `defaultLayout` template used when `index.html` is missing or fails
to parse. -/
def defaultLayout (usesTypeScript : Bool) : String :=
  (if usesTypeScript then
      "import type \x7b Metadata \x7d from 'next'\n\nexport const metadata: Metadata = \x7b\n  title: 'My App',\n  description: 'My application description',\n\x7d\n\n"
    else "")
    ++ "export default function RootLayout(\x7b\n  children,\n\x7d"
    ++ (if usesTypeScript then ": \x7b\n  children: React.ReactNode\n\x7d" else "")
    ++ ") \x7b\n  return (\n    <html lang=\"en\">\n      <body>\n        <div id=\"root\">\x7bchildren\x7d</div>\n      </body>\n    </html>\n  )\n\x7d"

/-! ## File-system state and emitted-file bookkeeping -/

/-- file-system contents visible to the emitter: an association list from
path strings to file contents (later writes shadow earlier entries). -/
def FS : Type := List (String × String)

/-- `fs.existsSync` / `fs.readFile` on the modelled state. -/
def fsGet : FS → String → Option String
  | [], _ => none
  | (k, v) :: rest, p => if k = p then some v else fsGet rest p

/-- `fs.writeFile` on the modelled state. -/
def fsSet (σ : FS) (p c : String) : FS := (p, c) :: σ

/-- `path.join` for the separator-free names the tool joins (POSIX view). -/
def pjoin (a b : String) : String := a ++ "/" ++ b

/-- the outcome of one emitter step: resulting state, the paths written (in
write order), whether the step logged an already-exists skip, the warnings
logged, and the step's return value. -/
structure EmitOut where
  fs : FS
  written : List String
  skipped : Bool
  warns : List String
  ret : Bool

/-- the root-layout creator driven by `index.html` (the variant that checks
all three layout extensions).  `parse` stands for the external HTML parser;
a thrown parse error is its `.error` result.  `rng` supplies the inline
`<Script>` identifiers. -/
def createRootLayout008 (parse : String → Except String HtmlDoc) (rng : Nat → String)
    (targetDir : String) (σ : FS) : EmitOut :=
  let appDir := pjoin targetDir "app"
  let layoutPath := pjoin appDir "layout.tsx"
  let layoutJsPath := pjoin appDir "layout.jsx"
  let layoutJsxPath := pjoin appDir "layout.js"
  if (fsGet σ layoutPath).isSome || (fsGet σ layoutJsPath).isSome
      || (fsGet σ layoutJsxPath).isSome then
    { fs := σ, written := [], skipped := true, warns := [], ret := true }
  else
    let usesTypeScript := (fsGet σ (pjoin targetDir "tsconfig.json")).isSome
    let parsed :=
      match fsGet σ (pjoin targetDir "index.html") with
      | some html =>
        match parse html with
        | .ok doc => (layoutFromDoc doc usesTypeScript rng, ([] : List String))
        | .error e => (defaultLayout usesTypeScript, ["Failed to parse index.html: " ++ e])
      | none => (defaultLayout usesTypeScript, [])
    let ext := if usesTypeScript then "tsx" else "jsx"
    let finalLayoutPath := pjoin appDir ("layout." ++ ext)
    { fs := fsSet σ finalLayoutPath parsed.1, written := [finalLayoutPath],
      skipped := false, warns := parsed.2, ret := true }

/-! ## Path resolver (segment view of POSIX paths)

Paths handed to `path.resolve`/`path.relative`/`path.join` are modelled as
segment lists; the target directory is taken pre-resolved, so the root
segment (common to both sides of every `relative` call) is left implicit. -/

/-- split a path string at `/` separators (segment accumulator reversed). -/
def splitSlashL (cur : List Char) : List Char → List String
  | [] => [⟨cur.reverse⟩]
  | c :: cs => if c = '/' then (⟨cur.reverse⟩ : String) :: splitSlashL [] cs
      else splitSlashL (c :: cur) cs

def splitSlash (s : String) : List String := splitSlashL [] s.data

/-- join segments with `/` (the POSIX rendering `path.relative` returns). -/
def joinSlash : List String → String
  | [] => ""
  | [x] => x
  | x :: y :: rest => x ++ "/" ++ joinSlash (y :: rest)

/-- one step of `path.join` normalization. -/
def normStep (acc : List String) (seg : String) : List String :=
  if seg = "." || seg = "" then acc
  else if seg = ".." then
    match acc.getLast? with
    | some l => if l = ".." then acc ++ [".."] else acc.dropLast
    | none => [".."]
  else acc ++ [seg]

/-- `path.join` segment normalization (`.` dropped, `..` resolved). -/
def normSegs (l : List String) : List String := l.foldl normStep []

/-- strip the longest common prefix of two segment lists. -/
def dropCommon : List String → List String → List String × List String
  | a :: as, b :: bs => if a = b then dropCommon as bs else (a :: as, b :: bs)
  | as, bs => (as, bs)

/-- `path.relative` on normalized segment lists. -/
def pathRelative (f t : List String) : List String :=
  let p := dropCommon f t
  p.1.map (fun _ => "..") ++ p.2

/-- the app directory of the per-setup layout/entrypoint creators:
`customAppDir ? join(targetDir, customAppDir) : join(join(targetDir, 'src'), 'app')`. -/
def appDirOf (targetDir : String) (customAppDir : Option String) : String :=
  match customAppDir with
  | some c => pjoin targetDir c
  | none => pjoin (pjoin targetDir "src") "app"

/-- the final step of the CSS import-path computation: ensure a `./` or
`../` prefix. -/
def ensureDotPrefix (rel : String) : String :=
  if strStarts rel "./" || strStarts rel "../" then rel else "./" ++ rel

/-- the CSS import path computed by the per-setup root-layout creator:
relative path from the app directory to the stylesheet, separators
normalized, `./` ensured. -/
def cssImportPathOf (targetDir : String) (customAppDir : Option String)
    (globalCssPath : String) : String :=
  let absoluteCssPath := normSegs (splitSlash targetDir ++ splitSlash globalCssPath)
  let appDirPath := normSegs (splitSlash (appDirOf targetDir customAppDir))
  ensureDotPrefix (mapBackslash (joinSlash (pathRelative appDirPath absoluteCssPath)))

/-! ## Per-setup root-layout creator (CSS-framework templates) -/

/-- the type/metadata block shared by the six layout templates. -/
def metadataTypeDef (usesTypeScript : Bool) : String :=
  if usesTypeScript then
    "\nexport type Metadata = \x7b\n    title: string;\n    description: string;\n  \x7d;\n\n  export const metadata: Metadata = \x7b\n    title: 'Next.js App',\n    description: 'Created with vite2next',\n  \x7d;\n  "
  else ""

/-- the shared head of the six templates' component text, up to the opening
`<body` (each template finishes the body tag its own way). -/
def layoutTail : String :=
  "export default function RootLayout(\x7b\n  children,\n\x7d: \x7b\n  children: React.ReactNode;\n\x7d) \x7b\n  return (\n    <html lang=\"en\">\n      <body"

def createBasicLayout (cssImportPath : Option String) (usesTypeScript : Bool) : String :=
  let styleImport := if jsTruthy cssImportPath then "import '" ++ cssImportPath.getD "" ++ "';" else ""
  styleImport ++ "\n\n" ++ metadataTypeDef usesTypeScript ++ layoutTail ++ ">"
    ++ (if jsTruthy cssImportPath then "" else "\n        <div className=\"app-container\">")
    ++ "\x7bchildren\x7d"
    ++ (if jsTruthy cssImportPath then "" else "\n        </div>")
    ++ "\n      </body>\n    </html>\n  );\n\x7d"

def createTailwindLayout (cssImportPath : Option String) (usesTypeScript : Bool) : String :=
  let styleImport := if jsTruthy cssImportPath then "import '" ++ cssImportPath.getD "" ++ "';" else "import './globals.css';"
  styleImport ++ "\n\n" ++ metadataTypeDef usesTypeScript ++ layoutTail
    ++ " className=\"min-h-screen bg-background\">\n        \x7bchildren\x7d\n      </body>\n    </html>\n  );\n\x7d"

def createStyledComponentsLayout (usesTypeScript : Bool) : String :=
  "'use client';\n\nimport \x7b useServerInsertedHTML \x7d from 'next/navigation';\nimport \x7b useStyledComponentsRegistry \x7d from '../lib/styled-components-registry';\n\n"
    ++ metadataTypeDef usesTypeScript
    ++ "export default function RootLayout(\x7b\n  children,\n\x7d: \x7b\n  children: React.ReactNode;\n\x7d) \x7b\n  const styledComponentsRegistry = useStyledComponentsRegistry();\n\n  return (\n    <html lang=\"en\">\n      <body>\n        \x7bstyledComponentsRegistry.styles\x7d\n        <div id=\"root\">\x7bchildren\x7d</div>\n      </body>\n    </html>\n  );\n\x7d"

def createEmotionLayout (usesTypeScript : Bool) : String :=
  "'use client';\n\nimport \x7b CacheProvider \x7d from '@emotion/react';\nimport \x7b useEmotionCache \x7d from '../lib/emotion-cache';\n\n"
    ++ metadataTypeDef usesTypeScript
    ++ "export default function RootLayout(\x7b\n  children,\n\x7d: \x7b\n  children: React.ReactNode;\n\x7d) \x7b\n  const cache = useEmotionCache();\n\n  return (\n    <html lang=\"en\">\n      <body>\n        <CacheProvider value=\x7bcache\x7d>\n          <div id=\"root\">\x7bchildren\x7d</div>\n        </CacheProvider>\n      </body>\n    </html>\n  );\n\x7d"

def createMuiLayout (usesTypeScript : Bool) : String :=
  "'use client';\n\nimport \x7b ThemeProvider \x7d from '@mui/material/styles';\nimport CssBaseline from '@mui/material/CssBaseline';\nimport \x7b theme \x7d from '../lib/mui-theme';\n\n"
    ++ metadataTypeDef usesTypeScript
    ++ "export default function RootLayout(\x7b\n  children,\n\x7d: \x7b\n  children: React.ReactNode;\n\x7d) \x7b\n  return (\n    <html lang=\"en\">\n      <body>\n        <ThemeProvider theme=\x7btheme\x7d>\n          <CssBaseline />\n          <div id=\"root\">\x7bchildren\x7d</div>\n        </ThemeProvider>\n      </body>\n    </html>\n  );\n\x7d"

def createChakraLayout (usesTypeScript : Bool) : String :=
  "'use client';\n\nimport \x7b ChakraProvider \x7d from '@chakra-ui/react';\n\n"
    ++ metadataTypeDef usesTypeScript
    ++ "export default function RootLayout(\x7b\n  children,\n\x7d: \x7b\n  children: React.ReactNode;\n\x7d) \x7b\n  return (\n    <html lang=\"en\">\n      <body>\n        <ChakraProvider>\n          <div id=\"root\">\x7bchildren\x7d</div>\n        </ChakraProvider>\n      </body>\n    </html>\n  );\n\x7d"

/-- the project-setup descriptor assembled by the CLI before migration. -/
structure ProjectSetup where
  usesTypeScript : Bool
  usesReactRouter : Bool
  cssFramework : String
  customAppDir : Option String

/-- contents of the generated `src/types/global.d.ts`. -/
def globalDtsContent : String :=
  "// Global type declarations for the project\n\n// This allows importing CSS modules\ndeclare module '*.module.css' \x7b\n  const classes: \x7b [key: string]: string \x7d;\n  export default classes;\n\x7d\n\n// For importing non-code assets in TypeScript\ndeclare module '*.svg' \x7b\n  import * as React from 'react';\n  export const ReactComponent: React.FunctionComponent<\n    React.SVGProps<SVGSVGElement>\n  >;\n  const src: string;\n  export default src;\n\x7d\n\ndeclare module '*.jpg' \x7b\n  const src: string;\n  export default src;\n\x7d\n\ndeclare module '*.jpeg' \x7b\n  const src: string;\n  export default src;\n\x7d\n\ndeclare module '*.png' \x7b\n  const src: string;\n  export default src;\n\x7d\n\ndeclare module '*.webp' \x7b\n  const src: string;\n  export default src;\n\x7d\n\ndeclare module '*.gif' \x7b\n  const src: string;\n  export default src;\n\x7d\n\ndeclare module '*.mp4' \x7b\n  const src: string;\n  export default src;\n\x7d\n\ndeclare module '*.webm' \x7b\n  const src: string;\n  export default src;\n\x7d\n\ndeclare module '*.module.scss' \x7b\n  const classes: \x7b [key: string]: string \x7d;\n  export default classes;\n\x7d\n\ndeclare module '*.module.sass' \x7b\n  const classes: \x7b [key: string]: string \x7d;\n  export default classes;\n\x7d"

/-- `createTypeDeclarations`: writes `src/types/global.d.ts` when the `src`
directory exists and the file is absent.  `srcDirExists` models
`fs.existsSync(srcDir)` (directory existence is outside the file map). -/
def createTypeDeclarations (targetDir : String) (srcDirExists : Bool) (σ : FS) :
    FS × List String :=
  if !srcDirExists then (σ, [])
  else
    let globalDtsPath := pjoin (pjoin (pjoin targetDir "src") "types") "global.d.ts"
    if (fsGet σ globalDtsPath).isSome then (σ, [])
    else (fsSet σ globalDtsPath globalDtsContent, [globalDtsPath])

/-- the per-setup root-layout creator: skip when the layout for the selected
extension exists, otherwise pick the template by `cssFramework` and write it
(plus type declarations under TypeScript).  `globalCss` is the stylesheet
locator's result for the project tree. -/
def createRootLayout007 (targetDir : String) (setup : ProjectSetup)
    (globalCss : Option String) (srcDirExists : Bool) (σ : FS) : EmitOut :=
  let appDir := appDirOf targetDir setup.customAppDir
  let usesTypeScript := setup.usesTypeScript
  let ext := if usesTypeScript then "tsx" else "jsx"
  let layoutFile := pjoin appDir ("layout." ++ ext)
  if (fsGet σ layoutFile).isSome then
    { fs := σ, written := [], skipped := true, warns := [], ret := true }
  else
    let cssImportPath := globalCss.map (cssImportPathOf targetDir setup.customAppDir)
    let layoutContent :=
      if setup.cssFramework = "tailwind" then createTailwindLayout cssImportPath usesTypeScript
      else if setup.cssFramework = "styled-components" then createStyledComponentsLayout usesTypeScript
      else if setup.cssFramework = "emotion" then createEmotionLayout usesTypeScript
      else if setup.cssFramework = "mui" then createMuiLayout usesTypeScript
      else if setup.cssFramework = "chakra" then createChakraLayout usesTypeScript
      else createBasicLayout cssImportPath usesTypeScript
    let σ1 := fsSet σ layoutFile layoutContent
    let after :=
      if usesTypeScript then createTypeDeclarations targetDir srcDirExists σ1
      else (σ1, [])
    { fs := after.1, written := layoutFile :: after.2, skipped := false,
      warns := [], ret := true }

/-! ## Entry-point creator -/

/-- the import path embedded by the catch-all page creator: backslashes
normalized, one script extension stripped, `src/` prefix replaced by the
climb from `app/[[...slug]]/` to the project root. -/
def catchAllImportPath (p : String) : String :=
  let q := stripScriptExt (mapBackslash p)
  if q = "src/App" || q = "src/app" || strStarts q "src/App/" || strStarts q "src/app/" then
    "../../" ++ strDropL q 4
  else if strStarts q "src/" then "../../" ++ strDropL q 4
  else "../../" ++ q

/-- the import path embedded by the direct page creator (climb from `app/`). -/
def directImportPath (p : String) : String :=
  let q := stripScriptExt (mapBackslash p)
  if q = "src/App" || q = "src/app" || strStarts q "src/App/" || strStarts q "src/app/" then
    "../" ++ strDropL q 4
  else if strStarts q "src/" then "../" ++ strDropL q 4
  else "../" ++ q

/-- the filter regex `/\.(jsx|tsx|js|ts)$/` of the pages-directory scan. -/
def scriptExtTest (f : String) : Bool :=
  strEnds f ".jsx" || strEnds f ".tsx" || strEnds f ".js" || strEnds f ".ts"

/-- `path.basename(file, path.extname(file))` for a plain directory entry
(Node semantics: a lone leading dot does not begin an extension). -/
def stripExtNode (f : String) : String :=
  let cs := f.data
  let after := cs.reverse.takeWhile (· ≠ '.')
  if after.length = cs.length then f
  else if after.length + 1 = cs.length then f
  else ⟨cs.take (cs.length - after.length - 1)⟩

/-- the slug of one sibling page file. -/
def slugName (f : String) : String := toLowerStr (stripExtNode f)

/-- the pages-directory filter of the catch-all creator. -/
def isPageFile (f : String) : Bool :=
  scriptExtTest f && !strStarts f "_" && f != "index.tsx" && f != "index.jsx"
    && f != "index.js" && f != "index.ts"

/-- the `slugs` array of the catch-all creator.  `none` models a missing
`src/pages` directory, `.error` a throwing `readdir` (caught and logged);
both keep the default `[{ slug: [''] }]`. -/
def slugsCode (pagesResult : Option (Except String (List String))) : List (List String) :=
  match pagesResult with
  | some (.ok pageFiles) =>
    let pageRoutes := (pageFiles.filter isPageFile).map (fun f => [slugName f])
    if pageRoutes.length > 0 then pageRoutes ++ [[""]] else [[""]]
  | _ => [[""]]

/-- `JSON.stringify` of one `{ slug: [...] }` object at array depth 1 with
two-space indentation. -/
def jsonSlugItem (names : List String) : String :=
  match names with
  | [] => "\x7b\n    \"slug\": []\n  \x7d"
  | _ => "\x7b\n    \"slug\": [\n"
      ++ String.intercalate ",\n" (names.map (fun n => "      " ++ jsonStr n))
      ++ "\n    ]\n  \x7d"

/-- `JSON.stringify(slugs, null, 2)`. -/
def jsonSlugs (slugs : List (List String)) : String :=
  match slugs with
  | [] => "[]"
  | _ => "[\n" ++ String.intercalate ",\n" (slugs.map (fun it => "  " ++ jsonSlugItem it)) ++ "\n]"

def clientContentOf (appPath : String) : String :=
  "'use client'\n\nimport React from 'react'\nimport dynamic from 'next/dynamic'\n\nconst App = dynamic(() => import('"
    ++ appPath
    ++ "'), \x7b ssr: false \x7d)\n\nexport function ClientOnly() \x7b\n  return <App />\n\x7d"

def pageContentOf (slugs : List (List String)) : String :=
  "import \x7b ClientOnly \x7d from './client'\n\nexport function generateStaticParams() \x7b\n  return "
    ++ jsonSlugs slugs
    ++ "\n\x7d\n\nexport default function Page() \x7b\n  return <ClientOnly />\n\x7d"

def directPageContentOf (importPath : String) : String :=
  "'use client'\n\nimport dynamic from 'next/dynamic'\n\nconst App = dynamic(() => import('"
    ++ importPath
    ++ "'), \x7b ssr: false \x7d)\n\nexport default function Home() \x7b\n  return <App />\n\x7d"

def fallbackPageContent : String :=
  "'use client'\n\nexport default function Home() \x7b\n  return (\n    <div style=\x7b\x7b \n      display: 'flex', \n      flexDirection: 'column',\n      alignItems: 'center',\n      justifyContent: 'center',\n      height: '100vh',\n      textAlign: 'center',\n      padding: '0 1rem'\n    \x7d\x7d>\n      <h1>Vite to Next.js Migration Complete</h1>\n      <p>\n        This is a fallback page. Your app components were not automatically detected.\n      </p>\n      <p>\n        To continue, create your pages in the <code>app</code> directory following the\n        <a href=\"https://nextjs.org/docs/app/building-your-application/routing\" \n           style=\x7b\x7b marginLeft: '0.5rem' \x7d\x7d>\n          Next.js App Router documentation\n        </a>.\n      </p>\n    </div>\n  )\n\x7d"

/-- `createCatchAllPage`: skip only when both catch-all files exist;
otherwise (re)write the client and page files. -/
def createCatchAllPage (appDir ext : String) (locator : Option String)
    (pagesResult : Option (Except String (List String))) (σ : FS) : EmitOut :=
  let slugDir := pjoin appDir "[[...slug]]"
  let pageFile := pjoin slugDir ("page." ++ ext)
  let clientFile := pjoin slugDir ("client." ++ ext)
  if (fsGet σ pageFile).isSome && (fsGet σ clientFile).isSome then
    { fs := σ, written := [], skipped := true, warns := [], ret := true }
  else
    let ap :=
      match locator with
      | none => ("App",
          ["Could not find App component file, you may need to adjust the import path manually"])
      | some p => (catchAllImportPath p, [])
    let σ1 := fsSet σ clientFile (clientContentOf ap.1)
    let σ2 := fsSet σ1 pageFile (pageContentOf (slugsCode pagesResult))
    { fs := σ2, written := [clientFile, pageFile], skipped := false,
      warns := ap.2, ret := true }

/-- `createEntrypoint`: catch-all route under React Router, otherwise a
direct page when the locator found the component and a fallback page when
it did not.  `locator` is the `findAppComponent` result for the tree. -/
def createEntrypoint (targetDir : String) (setup : ProjectSetup) (locator : Option String)
    (pagesResult : Option (Except String (List String))) (σ : FS) : EmitOut :=
  let appDir := appDirOf targetDir setup.customAppDir
  let ext := if setup.usesTypeScript then "tsx" else "jsx"
  if setup.usesReactRouter then
    createCatchAllPage appDir ext locator pagesResult σ
  else
    let pageFile := pjoin appDir ("page." ++ ext)
    if (fsGet σ pageFile).isSome then
      { fs := σ, written := [], skipped := true, warns := [], ret := true }
    else
      match locator with
      | some appComponentPath =>
        { fs := fsSet σ pageFile (directPageContentOf (directImportPath appComponentPath)),
          written := [pageFile], skipped := false, warns := [], ret := true }
      | none =>
        { fs := fsSet σ pageFile fallbackPageContent, written := [pageFile],
          skipped := false,
          warns := ["Could not find App component, creating fallback page"], ret := true }

/-- one migration pass over the target: per-setup root layout, then entry
point.  Locator/scan results are passed explicitly (identical inputs for
repeated runs). -/
def runPipeline (targetDir : String) (setup : ProjectSetup) (globalCss : Option String)
    (srcDirExists : Bool) (locator : Option String)
    (pagesResult : Option (Except String (List String))) (σ : FS) : EmitOut × EmitOut :=
  let o1 := createRootLayout007 targetDir setup globalCss srcDirExists σ
  (o1, createEntrypoint targetDir setup locator pagesResult o1.fs)

/-! ## Component locator (`findAppComponent`)

The tree is a list of project-relative slash-separated paths in traversal
order; `contents` models `fs.readFile` (with `none` for a read error, which
the source catches and logs). -/

def appFilePatterns : List String :=
  ["App.jsx", "App.tsx", "App.js", "App.tsx", "app.jsx", "app.tsx", "app.js", "app.ts"]

def mainFilePatterns : List String :=
  ["main.jsx", "main.tsx", "main.js", "main.ts", "index.jsx", "index.tsx", "index.js", "index.ts"]

/-- the `ignore` globs `node_modules/**`, `.git/**`, `dist/**`, `.next/**`,
`app/**` (anchored at the search root, so they exclude top-level
directories only). -/
def globIgnored (f : String) : Bool :=
  strStarts f "node_modules/" || strStarts f ".git/" || strStarts f "dist/"
    || strStarts f ".next/" || strStarts f "app/"

def basenameStr (f : String) : String := (splitSlash f).getLastD f

/-- `glob('**/pat', { ignore: ... })` for a literal basename pattern. -/
def globMatches (pat : String) (files : List String) : List String :=
  files.filter (fun f => !globIgnored f && basenameStr f == pat)

/-- `\w` of the import-matching regex (ASCII). -/
def isWordChar (c : Char) : Bool := c.isAlphanum || c = '_'

/-- `.` of the import-matching regex (anything but a line terminator). -/
def jsDotChar (c : Char) : Bool := c != '\n' && c != '\r'

/-- validity of taking the first `j` characters as the greedy `(.+App)`
capture: length at least 4, ends in `App`, no line terminator, followed by
a quote. -/
def capOk (r : List Char) (j : Nat) : Bool :=
  decide (4 ≤ j) && "App".data.isSuffixOf (r.take j) && (r.take j).all jsDotChar
    && (match r.drop j with
        | q :: _ => q = '\'' || q = '"'
        | [] => false)

/-- the greedy capture after the opening quote. -/
def greedyCapture (r : List Char) : Option String :=
  ((List.range (r.length + 1)).reverse.find? (capOk r)).map (fun j => ⟨r.take j⟩)

/-- attempt of `/import\s+(\w+)\s+from\s+['"](.+App)['"];?/` anchored at the
head of this suffix, returning the second capture group. -/
def matchImportAt (cs : List Char) : Option String :=
  if "import".data.isPrefixOf cs then
    let r1 := cs.drop 6
    if (r1.takeWhile jsIsSpace).isEmpty then none else
    let r2 := r1.dropWhile jsIsSpace
    if (r2.takeWhile isWordChar).isEmpty then none else
    let r3 := r2.dropWhile isWordChar
    if (r3.takeWhile jsIsSpace).isEmpty then none else
    let r4 := r3.dropWhile jsIsSpace
    if "from".data.isPrefixOf r4 then
      let r5 := r4.drop 4
      if (r5.takeWhile jsIsSpace).isEmpty then none else
      match r5.dropWhile jsIsSpace with
      | q :: r7 => if q = '\'' || q = '"' then greedyCapture r7 else none
      | [] => none
    else none
  else none

/-- leftmost match of `content.match(/import\s+(\w+)\s+from\s+['"](.+App)['"];?/)`. -/
def scanImport : List Char → Option String
  | [] => none
  | c :: cs =>
    match matchImportAt (c :: cs) with
    | some r => some r
    | none => scanImport cs

def jsMatchImportApp (content : String) : Option String := scanImport content.data

/-- resolution of a relative import specifier found in a main file:
`path.relative(targetDir, path.join(path.dirname(path.join(targetDir, f)), spec))`. -/
def resolveSpec (targetDir mainFileRel spec : String) : String :=
  let targetSegs := normSegs (splitSlash targetDir)
  let mainDir := (targetSegs ++ splitSlash mainFileRel).dropLast
  let appFull := normSegs (mainDir ++ splitSlash spec)
  joinSlash (pathRelative targetSegs appFull)

/-- the direct candidate-list loop of `findAppComponent`. -/
def goAppPats (files : List String) : List String → Option String
  | [] => none
  | pat :: rest =>
    match globMatches pat files with
    | [] => goAppPats files rest
    | f :: _ => some f

/-- the entry-script fallback loop of `findAppComponent`. -/
def goMainPats (files : List String) (contents : String → Option String)
    (targetDir : String) : List String → Option String
  | [] => none
  | pat :: rest =>
    match globMatches pat files with
    | [] => goMainPats files contents targetDir rest
    | f :: _ =>
      match contents (pjoin targetDir f) with
      | none => goMainPats files contents targetDir rest
      | some content =>
        match jsMatchImportApp content with
        | none => goMainPats files contents targetDir rest
        | some appPath =>
          if strStarts appPath "./" || strStarts appPath "../" then
            some (resolveSpec targetDir f appPath)
          else some appPath

/-- `findAppComponent`: candidate filenames in priority order, then the
entry-script import fallback, else `null`. -/
def findAppComponent (files : List String) (contents : String → Option String)
    (targetDir : String) : Option String :=
  match goAppPats files appFilePatterns with
  | some f => some f
  | none => goMainPats files contents targetDir mainFilePatterns

/-- Refinement comparison for the route-topology claim, following the
claim's words: `staticSlugs` as the lower-cased, extension-stripped
basenames of the files in the pages directory, excluding only filenames
beginning with `_` and the conventional index basenames, root entry last. -/
def slugsSpecClaim (pageFiles : List String) : List (List String) :=
  (pageFiles.filter (fun f => !strStarts f "_" && f != "index.tsx" && f != "index.jsx"
      && f != "index.js" && f != "index.ts")).map (fun f => [slugName f]) ++ [[""]]

/-! ## Shape predicates for located artifacts -/

/-- an import path free of a trailing script-file extension. -/
def noScriptExt (s : String) : Prop :=
  strEnds s ".tsx" = false ∧ strEnds s ".jsx" = false
    ∧ strEnds s ".ts" = false ∧ strEnds s ".js" = false

/-- the shape of every component path the locator can return: a direct glob
hit ends with one of the candidate basenames, and an entry-script fallback
result ends with the captured `...App` specifier's basename. -/
def locatedComponentShape (p : String) : Prop :=
  strEnds p "App.jsx" = true ∨ strEnds p "App.tsx" = true ∨ strEnds p "App.js" = true
    ∨ strEnds p "app.jsx" = true ∨ strEnds p "app.tsx" = true ∨ strEnds p "app.js" = true
    ∨ strEnds p "app.ts" = true ∨ strEnds p "App" = true

/-- the shape of every stylesheet path the locator can return: a `**/*.css`
glob hit, so its basename ends with `.css`. -/
def locatedStylesheetShape (g : String) : Prop :=
  strEnds (basenameStr g) ".css" = true

/-! ## General lemmas about the string helpers -/

theorem strEnds_iff {s p : String} : strEnds s p = true ↔ p.data <:+ s.data := by
  simp [strEnds, List.isSuffixOf_iff_suffix]

theorem strStarts_iff {s p : String} : strStarts s p = true ↔ p.data <+: s.data := by
  simp [strStarts, List.isPrefixOf_iff_prefix]

theorem strEnds_trans {s a b : String} (h₁ : strEnds s a = true)
    (h₂ : strEnds a b = true) : strEnds s b = true := by
  rw [strEnds_iff] at h₁ h₂ ⊢
  exact h₂.trans h₁

theorem strEnds_append_right (a b : String) : strEnds (a ++ b) b = true := by
  rw [strEnds_iff, String.data_append]
  exact List.suffix_append _ _

theorem strEnds_append_left {s b : String} (a : String) (h : strEnds s b = true) :
    strEnds (a ++ s) b = true := by
  rw [strEnds_iff] at h ⊢
  rw [String.data_append]
  exact h.trans (List.suffix_append _ _)

theorem strStarts_append_left {a : String} (b : String) {p : String}
    (h : strStarts a p = true) : strStarts (a ++ b) p = true := by
  rw [strStarts_iff] at h ⊢
  rw [String.data_append]
  exact h.trans (List.prefix_append _ _)

theorem strStarts_append_self (p b : String) : strStarts (p ++ b) p = true := by
  rw [strStarts_iff, String.data_append]
  exact List.prefix_append _ _

theorem str_data_inj {a b : String} (h : a.data = b.data) : a = b := by
  cases a
  cases b
  cases h
  rfl

theorem strEnds_unique {q a b : String} (ha : strEnds q a = true)
    (hb : strEnds q b = true) (hl : a.data.length = b.data.length) : a = b := by
  rw [strEnds_iff] at ha hb
  obtain ⟨u, hu⟩ := ha
  obtain ⟨v, hv⟩ := hb
  have h : u ++ a.data = v ++ b.data := hu.trans hv.symm
  have hul : u.length = v.length := by
    have h2 := congrArg List.length h
    rw [List.length_append, List.length_append, hl] at h2
    omega
  exact str_data_inj (List.append_inj h hul).2

theorem not_ends_of_ends {q a b : String} (ha : strEnds q a = true)
    (hl : a.data.length = b.data.length) (hne : a ≠ b) : strEnds q b = false := by
  cases hx : strEnds q b with
  | false => rfl
  | true => exact absurd (strEnds_unique ha hx hl) hne

theorem getLast?_of_strEnds {s p : String} (h : strEnds s p = true)
    (hp : p.data ≠ []) : s.data.getLast? = p.data.getLast? := by
  rw [strEnds_iff] at h
  obtain ⟨u, hu⟩ := h
  rw [← hu]
  exact List.getLast?_append_of_ne_nil u hp

theorem strEnds_false_of_getLast {r p : String} {c c' : Char}
    (hr : r.data.getLast? = some c) (hp : p.data.getLast? = some c') (hne : c ≠ c') :
    strEnds r p = false := by
  cases hx : strEnds r p with
  | false => rfl
  | true =>
    have hpne : p.data ≠ [] := by
      intro h0
      rw [h0] at hp
      simp at hp
    have := getLast?_of_strEnds hx hpne
    rw [hr, hp] at this
    exact absurd (Option.some.inj this) hne

/-- a string whose last character is not `x` and not `s` carries no script
extension. -/
theorem noScriptExt_of_getLast {r : String} {c : Char} (hr : r.data.getLast? = some c)
    (h1 : c ≠ 'x') (h2 : c ≠ 's') : noScriptExt r := by
  refine ⟨?_, ?_, ?_, ?_⟩
  · exact strEnds_false_of_getLast hr (by decide) h1
  · exact strEnds_false_of_getLast hr (by decide) h1
  · exact strEnds_false_of_getLast hr (by decide) h2
  · exact strEnds_false_of_getLast hr (by decide) h2

theorem strEnds_mapBackslash {p c : String} (h : strEnds p c = true)
    (hc : c.data.map (fun a => if a = '\\' then '/' else a) = c.data) :
    strEnds (mapBackslash p) c = true := by
  rw [strEnds_iff] at h ⊢
  obtain ⟨u, hu⟩ := h
  refine ⟨u.map (fun a => if a = '\\' then '/' else a), ?_⟩
  have : (mapBackslash p).data = p.data.map (fun a => if a = '\\' then '/' else a) := rfl
  rw [this, ← hu, List.map_append, hc]

theorem bs_not_mem_mapBackslash (p : String) : '\\' ∉ (mapBackslash p).data := by
  intro hmem
  have : (mapBackslash p).data = p.data.map (fun a => if a = '\\' then '/' else a) := rfl
  rw [this] at hmem
  obtain ⟨a, _, ha⟩ := List.mem_map.mp hmem
  by_cases h : a = '\\' <;> simp [h] at ha

theorem strEnds_take_of_append {q a b : String} (h : strEnds q (a ++ b) = true) :
    strEnds (strDropRightL q b.data.length) a = true := by
  rw [strEnds_iff] at h
  obtain ⟨u, hu⟩ := h
  rw [strEnds_iff]
  have hd : (strDropRightL q b.data.length).data = u ++ a.data := by
    have hq : q.data = (u ++ a.data) ++ b.data := by
      rw [← hu, String.data_append, List.append_assoc]
    have hlen : q.data.length - b.data.length = (u ++ a.data).length := by
      rw [hq]
      simp
      omega
    show q.data.take (q.data.length - b.data.length) = u ++ a.data
    rw [hlen, hq, List.take_left]
  rw [hd]
  exact List.suffix_append _ _

theorem not_ends_longer {q a b : String} (hb : strEnds q b = false)
    (hab : strEnds a b = true) : strEnds q a = false := by
  cases hx : strEnds q a with
  | false => rfl
  | true =>
    have h2 := strEnds_trans hx hab
    rw [h2] at hb
    simp at hb

theorem strip_case_n {q : String} (base e : String) (hbase : base.data.getLast? = some 'p')
    (h : strEnds q (base ++ e) = true)
    (hstrip : stripScriptExt q = strDropRightL q e.data.length) :
    (stripScriptExt q).data.getLast? = some 'p' := by
  have h1 := strEnds_take_of_append h
  rw [hstrip]
  have hne : base.data ≠ [] := by
    intro h0
    rw [h0] at hbase
    simp at hbase
  rw [getLast?_of_strEnds h1 hne, hbase]

theorem getLast_strip_candidate {q : String}
    (h : strEnds q "App.jsx" = true ∨ strEnds q "App.tsx" = true
      ∨ strEnds q "App.js" = true ∨ strEnds q "app.jsx" = true
      ∨ strEnds q "app.tsx" = true ∨ strEnds q "app.js" = true
      ∨ strEnds q "app.ts" = true ∨ strEnds q "App" = true) :
    (stripScriptExt q).data.getLast? = some 'p' := by
  rcases h with h | h | h | h | h | h | h | h
  · have hj : strEnds q ".jsx" = true := strEnds_trans h (by decide)
    have ht : strEnds q ".tsx" = false := not_ends_of_ends hj (by decide) (by decide)
    refine strip_case_n "App" ".jsx" (by decide)
      (by rw [show ("App" ++ ".jsx" : String) = "App.jsx" from by decide]; exact h) ?_
    simp [stripScriptExt, ht, hj]
  · have ht : strEnds q ".tsx" = true := strEnds_trans h (by decide)
    refine strip_case_n "App" ".tsx" (by decide)
      (by rw [show ("App" ++ ".tsx" : String) = "App.tsx" from by decide]; exact h) ?_
    simp [stripScriptExt, ht]
  · have hjs : strEnds q ".js" = true := strEnds_trans h (by decide)
    have h3 : strEnds q "tsx" = false := not_ends_of_ends hjs (by decide) (by decide)
    have h4 : strEnds q "jsx" = false := not_ends_of_ends hjs (by decide) (by decide)
    have ht : strEnds q ".tsx" = false := not_ends_longer h3 (by decide)
    have hj : strEnds q ".jsx" = false := not_ends_longer h4 (by decide)
    have hts : strEnds q ".ts" = false := not_ends_of_ends hjs (by decide) (by decide)
    refine strip_case_n "App" ".js" (by decide)
      (by rw [show ("App" ++ ".js" : String) = "App.js" from by decide]; exact h) ?_
    simp [stripScriptExt, ht, hj, hts, hjs]
  · have hj : strEnds q ".jsx" = true := strEnds_trans h (by decide)
    have ht : strEnds q ".tsx" = false := not_ends_of_ends hj (by decide) (by decide)
    refine strip_case_n "app" ".jsx" (by decide)
      (by rw [show ("app" ++ ".jsx" : String) = "app.jsx" from by decide]; exact h) ?_
    simp [stripScriptExt, ht, hj]
  · have ht : strEnds q ".tsx" = true := strEnds_trans h (by decide)
    refine strip_case_n "app" ".tsx" (by decide)
      (by rw [show ("app" ++ ".tsx" : String) = "app.tsx" from by decide]; exact h) ?_
    simp [stripScriptExt, ht]
  · have hjs : strEnds q ".js" = true := strEnds_trans h (by decide)
    have h3 : strEnds q "tsx" = false := not_ends_of_ends hjs (by decide) (by decide)
    have h4 : strEnds q "jsx" = false := not_ends_of_ends hjs (by decide) (by decide)
    have ht : strEnds q ".tsx" = false := not_ends_longer h3 (by decide)
    have hj : strEnds q ".jsx" = false := not_ends_longer h4 (by decide)
    have hts : strEnds q ".ts" = false := not_ends_of_ends hjs (by decide) (by decide)
    refine strip_case_n "app" ".js" (by decide)
      (by rw [show ("app" ++ ".js" : String) = "app.js" from by decide]; exact h) ?_
    simp [stripScriptExt, ht, hj, hts, hjs]
  · have hts : strEnds q ".ts" = true := strEnds_trans h (by decide)
    have h3 : strEnds q "tsx" = false := not_ends_of_ends hts (by decide) (by decide)
    have h4 : strEnds q "jsx" = false := not_ends_of_ends hts (by decide) (by decide)
    have ht : strEnds q ".tsx" = false := not_ends_longer h3 (by decide)
    have hj : strEnds q ".jsx" = false := not_ends_longer h4 (by decide)
    refine strip_case_n "app" ".ts" (by decide)
      (by rw [show ("app" ++ ".ts" : String) = "app.ts" from by decide]; exact h) ?_
    simp [stripScriptExt, ht, hj, hts]
  · have h3 : strEnds q "tsx" = false := not_ends_of_ends h (by decide) (by decide)
    have h4 : strEnds q "jsx" = false := not_ends_of_ends h (by decide) (by decide)
    have ht : strEnds q ".tsx" = false := not_ends_longer h3 (by decide)
    have hj : strEnds q ".jsx" = false := not_ends_longer h4 (by decide)
    have hts : strEnds q ".ts" = false := not_ends_of_ends h (by decide) (by decide)
    have hjs : strEnds q ".js" = false := not_ends_of_ends h (by decide) (by decide)
    have hid : stripScriptExt q = q := by simp [stripScriptExt, ht, hj, hts, hjs]
    rw [hid]
    have hne : ("App" : String).data ≠ [] := by decide
    rw [getLast?_of_strEnds h hne]
    decide

theorem getLast?_str_append (a b : String) :
    (a ++ b).data.getLast? = if b.data = [] then a.data.getLast? else b.data.getLast? := by
  rw [String.data_append]
  by_cases h : b.data = []
  · simp [h]
  · simp [h, List.getLast?_append_of_ne_nil _ h]

theorem getLast?_drop_of_ne {l : List Char} {n : Nat} (h : l.drop n ≠ []) :
    (l.drop n).getLast? = l.getLast? := by
  obtain ⟨u, hu⟩ := List.drop_suffix n l
  conv_rhs => rw [← hu]
  exact (List.getLast?_append_of_ne_nil u h).symm

theorem bs_not_mem_append {a b : String} (ha : '\\' ∉ a.data) (hb : '\\' ∉ b.data) :
    '\\' ∉ (a ++ b).data := by
  rw [String.data_append]
  intro hm
  rcases List.mem_append.mp hm with h | h
  · exact ha h
  · exact hb h

theorem bs_not_mem_strip {s : String} (h : '\\' ∉ s.data) :
    '\\' ∉ (stripScriptExt s).data := by
  unfold stripScriptExt
  split
  · exact fun hm => h (List.mem_of_mem_take hm)
  · split
    · exact fun hm => h (List.mem_of_mem_take hm)
    · split
      · exact fun hm => h (List.mem_of_mem_take hm)
      · split
        · exact fun hm => h (List.mem_of_mem_take hm)
        · exact h

theorem bs_not_mem_dropL {s : String} (n : Nat) (h : '\\' ∉ s.data) :
    '\\' ∉ (strDropL s n).data :=
  fun hm => h (List.mem_of_mem_drop hm)

/-- shared last-character analysis for the two import-path builders: with the
stripped path's last character `p`, any branch result `pre ++ tail` carries
no script extension. -/
theorem noExt_prefix_tail {q : String} (pre tail : String)
    (hpre : pre.data.getLast? = some '/')
    (htail : tail.data = [] ∨ tail.data.getLast? = q.data.getLast?)
    (hq : q.data.getLast? = some 'p') : noScriptExt (pre ++ tail) := by
  rcases htail with h | h
  · refine noScriptExt_of_getLast (c := '/') ?_ (by decide) (by decide)
    rw [getLast?_str_append, if_pos h]
    exact hpre
  · refine noScriptExt_of_getLast (c := 'p') ?_ (by decide) (by decide)
    rw [getLast?_str_append]
    have hne : tail.data ≠ [] := by
      intro h0
      rw [h0] at h
      rw [hq] at h
      simp at h
    rw [if_neg hne, h, hq]

theorem noExt_catchAll_branches {q : String} (pre : String)
    (hpre : pre.data.getLast? = some '/') (hq : q.data.getLast? = some 'p') :
    noScriptExt (pre ++ strDropL q 4) ∧ noScriptExt (pre ++ q) := by
  constructor
  · refine noExt_prefix_tail pre _ hpre ?_ hq
    by_cases h : q.data.drop 4 = []
    · left
      exact h
    · right
      exact getLast?_drop_of_ne h
  · refine noExt_prefix_tail pre _ hpre (Or.inr rfl) hq

theorem catchAllImportPath_props {p : String} :
    strStarts (catchAllImportPath p) "../" = true
      ∧ '\\' ∉ (catchAllImportPath p).data
      ∧ (locatedComponentShape p → noScriptExt (catchAllImportPath p)) := by
  have hbs : '\\' ∉ (stripScriptExt (mapBackslash p)).data :=
    bs_not_mem_strip (bs_not_mem_mapBackslash p)
  refine ⟨?_, ?_, ?_⟩
  · simp only [catchAllImportPath]
    split
    · exact strStarts_append_left _ (by decide)
    · split
      · exact strStarts_append_left _ (by decide)
      · exact strStarts_append_left _ (by decide)
  · simp only [catchAllImportPath]
    split
    · exact bs_not_mem_append (by decide) (bs_not_mem_dropL _ hbs)
    · split
      · exact bs_not_mem_append (by decide) (bs_not_mem_dropL _ hbs)
      · exact bs_not_mem_append (by decide) hbs
  · intro hshape
    have hmap : strEnds (mapBackslash p) "App.jsx" = true
        ∨ strEnds (mapBackslash p) "App.tsx" = true
        ∨ strEnds (mapBackslash p) "App.js" = true
        ∨ strEnds (mapBackslash p) "app.jsx" = true
        ∨ strEnds (mapBackslash p) "app.tsx" = true
        ∨ strEnds (mapBackslash p) "app.js" = true
        ∨ strEnds (mapBackslash p) "app.ts" = true
        ∨ strEnds (mapBackslash p) "App" = true := by
      rcases hshape with h | h | h | h | h | h | h | h
      · exact Or.inl (strEnds_mapBackslash h (by decide))
      · exact Or.inr (Or.inl (strEnds_mapBackslash h (by decide)))
      · exact Or.inr (Or.inr (Or.inl (strEnds_mapBackslash h (by decide))))
      · exact Or.inr (Or.inr (Or.inr (Or.inl (strEnds_mapBackslash h (by decide)))))
      · exact Or.inr (Or.inr (Or.inr (Or.inr (Or.inl (strEnds_mapBackslash h (by decide))))))
      · exact Or.inr (Or.inr (Or.inr (Or.inr (Or.inr (Or.inl
          (strEnds_mapBackslash h (by decide)))))))
      · exact Or.inr (Or.inr (Or.inr (Or.inr (Or.inr (Or.inr (Or.inl
          (strEnds_mapBackslash h (by decide))))))))
      · exact Or.inr (Or.inr (Or.inr (Or.inr (Or.inr (Or.inr (Or.inr
          (strEnds_mapBackslash h (by decide))))))))
    have hq := getLast_strip_candidate hmap
    simp only [catchAllImportPath]
    split
    · exact (noExt_catchAll_branches "../../" (by decide) hq).1
    · split
      · exact (noExt_catchAll_branches "../../" (by decide) hq).1
      · exact (noExt_catchAll_branches "../../" (by decide) hq).2

theorem directImportPath_props {p : String} :
    strStarts (directImportPath p) "../" = true
      ∧ '\\' ∉ (directImportPath p).data
      ∧ (locatedComponentShape p → noScriptExt (directImportPath p)) := by
  have hbs : '\\' ∉ (stripScriptExt (mapBackslash p)).data :=
    bs_not_mem_strip (bs_not_mem_mapBackslash p)
  refine ⟨?_, ?_, ?_⟩
  · simp only [directImportPath]
    split
    · exact strStarts_append_left _ (by decide)
    · split
      · exact strStarts_append_left _ (by decide)
      · exact strStarts_append_left _ (by decide)
  · simp only [directImportPath]
    split
    · exact bs_not_mem_append (by decide) (bs_not_mem_dropL _ hbs)
    · split
      · exact bs_not_mem_append (by decide) (bs_not_mem_dropL _ hbs)
      · exact bs_not_mem_append (by decide) hbs
  · intro hshape
    have hmap : strEnds (mapBackslash p) "App.jsx" = true
        ∨ strEnds (mapBackslash p) "App.tsx" = true
        ∨ strEnds (mapBackslash p) "App.js" = true
        ∨ strEnds (mapBackslash p) "app.jsx" = true
        ∨ strEnds (mapBackslash p) "app.tsx" = true
        ∨ strEnds (mapBackslash p) "app.js" = true
        ∨ strEnds (mapBackslash p) "app.ts" = true
        ∨ strEnds (mapBackslash p) "App" = true := by
      rcases hshape with h | h | h | h | h | h | h | h
      · exact Or.inl (strEnds_mapBackslash h (by decide))
      · exact Or.inr (Or.inl (strEnds_mapBackslash h (by decide)))
      · exact Or.inr (Or.inr (Or.inl (strEnds_mapBackslash h (by decide))))
      · exact Or.inr (Or.inr (Or.inr (Or.inl (strEnds_mapBackslash h (by decide)))))
      · exact Or.inr (Or.inr (Or.inr (Or.inr (Or.inl (strEnds_mapBackslash h (by decide))))))
      · exact Or.inr (Or.inr (Or.inr (Or.inr (Or.inr (Or.inl
          (strEnds_mapBackslash h (by decide)))))))
      · exact Or.inr (Or.inr (Or.inr (Or.inr (Or.inr (Or.inr (Or.inl
          (strEnds_mapBackslash h (by decide))))))))
      · exact Or.inr (Or.inr (Or.inr (Or.inr (Or.inr (Or.inr (Or.inr
          (strEnds_mapBackslash h (by decide))))))))
    have hq := getLast_strip_candidate hmap
    simp only [directImportPath]
    split
    · exact (noExt_catchAll_branches "../" (by decide) hq).1
    · split
      · exact (noExt_catchAll_branches "../" (by decide) hq).1
      · exact (noExt_catchAll_branches "../" (by decide) hq).2

theorem splitSlashL_ne_nil (l : List Char) : ∀ cur, splitSlashL cur l ≠ [] := by
  induction l with
  | nil => intro cur; simp [splitSlashL]
  | cons c cs ih =>
    intro cur
    simp only [splitSlashL]
    split
    · simp
    · exact ih _

theorem splitSlash_ne_nil (s : String) : splitSlash s ≠ [] := splitSlashL_ne_nil s.data []

theorem normSegs_concat {x : String} (l : List String) (h1 : x ≠ ".") (h2 : x ≠ "")
    (h3 : x ≠ "..") : normSegs (l ++ [x]) = normSegs l ++ [x] := by
  unfold normSegs
  rw [List.foldl_append]
  simp [normStep, h1, h2, h3]

theorem dropCommon_snd_suffix : ∀ a b : List String, (dropCommon a b).2 <:+ b
  | [], b => by simp [dropCommon]
  | a :: as, [] => by simp [dropCommon]
  | a :: as, b :: bs => by
    simp only [dropCommon]
    split
    · exact (dropCommon_snd_suffix as bs).trans (List.suffix_cons b bs)
    · exact List.suffix_refl _

theorem getLast?_of_suffix {α : Type} {l b : List α} (h : l <:+ b) (hne : l ≠ []) :
    b.getLast? = l.getLast? := by
  obtain ⟨u, rfl⟩ := h
  exact List.getLast?_append_of_ne_nil u hne

theorem joinSlash_ends {x : String} : ∀ l : List String,
    l.getLast? = some x → strEnds (joinSlash l) x = true
  | [], h => by simp at h
  | [a], h => by
    have ha : a = x := by simpa using h
    subst ha
    rw [strEnds_iff]
    exact List.suffix_refl _
  | a :: b :: rest, h => by
    have h2 : (b :: rest).getLast? = some x := by
      simpa using h
    have ih := joinSlash_ends (b :: rest) h2
    rw [joinSlash]
    exact strEnds_append_left _ ih

theorem ensureDot_starts (rel : String) : strStarts (ensureDotPrefix rel) "./" = true
    ∨ strStarts (ensureDotPrefix rel) "../" = true := by
  unfold ensureDotPrefix
  split
  case isTrue h =>
    rcases Bool.or_eq_true_iff.mp h with h' | h'
    · exact Or.inl h'
    · exact Or.inr h'
  case isFalse h => exact Or.inl (strStarts_append_self _ _)

theorem ensureDot_ends {rel suf : String} (h : strEnds rel suf = true) :
    strEnds (ensureDotPrefix rel) suf = true := by
  unfold ensureDotPrefix
  split
  · exact h
  · exact strEnds_append_left _ h

theorem ensureDot_bs {rel : String} (h : '\\' ∉ rel.data) :
    '\\' ∉ (ensureDotPrefix rel).data := by
  unfold ensureDotPrefix
  split
  · exact h
  · exact bs_not_mem_append (by decide) h

theorem noScriptExt_of_endsCss {r : String} (h : strEnds r ".css" = true) : noScriptExt r := by
  have h3 : strEnds r "css" = true := strEnds_trans h (by decide)
  exact ⟨not_ends_of_ends h (by decide) (by decide), not_ends_of_ends h (by decide) (by decide),
    not_ends_of_ends h3 (by decide) (by decide), not_ends_of_ends h3 (by decide) (by decide)⟩

theorem noScriptExt_of_endsDots {r : String} (h : strEnds r ".." = true) : noScriptExt r := by
  have hl := getLast?_of_strEnds h (by decide)
  rw [show ((".." : String).data.getLast?) = some '.' from by decide] at hl
  exact noScriptExt_of_getLast hl (by decide) (by decide)

theorem cssRel_shape (A C : List String) {bn : String} (hC : C.getLast? = some bn) :
    pathRelative A C = [] ∨ (pathRelative A C).getLast? = some ".."
      ∨ (pathRelative A C).getLast? = some bn := by
  simp only [pathRelative]
  rcases hs2 : (dropCommon A C).2 with _ | ⟨x, xs⟩
  · rcases hd : (dropCommon A C).1 with _ | ⟨y, ys⟩
    · left
      simp
    · right
      left
      simp only [List.map_cons]
      have : ∀ n : Nat, ((".." : String) :: List.replicate n "..").getLast? = some ".." := by
        intro n
        induction n with
        | zero => rfl
        | succ k ih =>
          rw [List.replicate_succ, List.getLast?_cons_cons]
          exact ih
      simpa using this ys.length
  · right
    right
    have hsuf := dropCommon_snd_suffix A C
    rw [hs2] at hsuf
    have hlast : (x :: xs).getLast? = some bn := by
      rw [← getLast?_of_suffix hsuf (by simp), hC]
    rw [List.getLast?_append_of_ne_nil _ (by simp), hlast]

theorem cssImportPathOf_props {targetDir : String} {custom : Option String} {g : String}
    (hg : locatedStylesheetShape g) :
    (strStarts (cssImportPathOf targetDir custom g) "./" = true
        ∨ strStarts (cssImportPathOf targetDir custom g) "../" = true)
      ∧ '\\' ∉ (cssImportPathOf targetDir custom g).data
      ∧ noScriptExt (cssImportPathOf targetDir custom g) := by
  have hsg : splitSlash g ≠ [] := splitSlash_ne_nil g
  set bn := (splitSlash g).getLast hsg with hbn
  have hcss : strEnds bn ".css" = true := by
    have : basenameStr g = bn := by
      rw [basenameStr, List.getLastD_eq_getLast?, List.getLast?_eq_getLast _ hsg]
      rfl
    rw [locatedStylesheetShape, this] at hg
    exact hg
  have hb1 : bn ≠ "." := by
    intro h0
    rw [h0] at hcss
    exact absurd hcss (by decide)
  have hb2 : bn ≠ "" := by
    intro h0
    rw [h0] at hcss
    exact absurd hcss (by decide)
  have hb3 : bn ≠ ".." := by
    intro h0
    rw [h0] at hcss
    exact absurd hcss (by decide)
  have hsplit : splitSlash targetDir ++ splitSlash g
      = (splitSlash targetDir ++ (splitSlash g).dropLast) ++ [bn] := by
    conv_lhs => rw [← List.dropLast_concat_getLast hsg]
    rw [List.append_assoc]
  have hC : (normSegs (splitSlash targetDir ++ splitSlash g)).getLast? = some bn := by
    rw [hsplit, normSegs_concat _ hb1 hb2 hb3, List.getLast?_concat]
  simp only [cssImportPathOf]
  rcases cssRel_shape (normSegs (splitSlash (appDirOf targetDir custom))) _ hC
    with hrel | hrel | hrel
  · rw [hrel]
    refine ⟨?_, ?_, ?_⟩
    · exact ensureDot_starts _
    · exact ensureDot_bs (by decide)
    · rw [show mapBackslash (joinSlash []) = "" from by decide]
      rw [show ensureDotPrefix "" = "./" from by decide]
      exact ⟨by decide, by decide, by decide, by decide⟩
  · have hends : strEnds (mapBackslash (joinSlash _)) ".." = true :=
      strEnds_mapBackslash (joinSlash_ends _ hrel) (by decide)
    exact ⟨ensureDot_starts _, ensureDot_bs (bs_not_mem_mapBackslash _),
      noScriptExt_of_endsDots (ensureDot_ends hends)⟩
  · have hends : strEnds (mapBackslash (joinSlash _)) ".css" = true :=
      strEnds_mapBackslash (strEnds_trans (joinSlash_ends _ hrel) hcss) (by decide)
    exact ⟨ensureDot_starts _, ensureDot_bs (bs_not_mem_mapBackslash _),
      noScriptExt_of_endsCss (ensureDot_ends hends)⟩

/-- C4: for every located artifact at relative path `P` (a component path
ending in a candidate basename or a captured `...App` specifier, or a
stylesheet path with a `.css` basename) and each target file directory the
creators write into, the computed import path embedded in the emitted file
starts with `./` or `../`, contains no backslash characters, and carries no
trailing script-file extension (`.ts`, `.tsx`, `.js`, `.jsx`). -/
theorem c4_path_correctness :
    (∀ p : String,
        strStarts (catchAllImportPath p) "../" = true
          ∧ '\\' ∉ (catchAllImportPath p).data
          ∧ strStarts (directImportPath p) "../" = true
          ∧ '\\' ∉ (directImportPath p).data)
      ∧ (∀ p : String, locatedComponentShape p →
          noScriptExt (catchAllImportPath p) ∧ noScriptExt (directImportPath p))
      ∧ (∀ (targetDir : String) (custom : Option String) (g : String),
          locatedStylesheetShape g →
            (strStarts (cssImportPathOf targetDir custom g) "./" = true
                ∨ strStarts (cssImportPathOf targetDir custom g) "../" = true)
              ∧ '\\' ∉ (cssImportPathOf targetDir custom g).data
              ∧ noScriptExt (cssImportPathOf targetDir custom g)) := by
  refine ⟨?_, ?_, ?_⟩
  · intro p
    exact ⟨catchAllImportPath_props.1, catchAllImportPath_props.2.1,
      directImportPath_props.1, directImportPath_props.2.1⟩
  · intro p hp
    exact ⟨catchAllImportPath_props.2.2 hp, directImportPath_props.2.2 hp⟩
  · intro targetDir custom g hg
    exact cssImportPathOf_props hg

/-- Witness for C4 at concrete located artifacts. -/
theorem c4_witness :
    (strStarts (catchAllImportPath "src/App.tsx") "../" = true
        ∧ '\\' ∉ (catchAllImportPath "src/App.tsx").data)
      ∧ locatedComponentShape "src/App.tsx"
      ∧ noScriptExt (catchAllImportPath "src/App.tsx")
      ∧ noScriptExt (directImportPath "src/App.tsx")
      ∧ locatedStylesheetShape "styles/index.css"
      ∧ (strStarts (cssImportPathOf "proj" none "styles/index.css") "./" = true
          ∨ strStarts (cssImportPathOf "proj" none "styles/index.css") "../" = true)
      ∧ noScriptExt (cssImportPathOf "proj" none "styles/index.css") :=
  ⟨⟨(c4_path_correctness.1 "src/App.tsx").1, (c4_path_correctness.1 "src/App.tsx").2.1⟩,
    by unfold locatedComponentShape; decide,
    (c4_path_correctness.2.1 "src/App.tsx" (by unfold locatedComponentShape; decide)).1,
    (c4_path_correctness.2.1 "src/App.tsx" (by unfold locatedComponentShape; decide)).2,
    by unfold locatedStylesheetShape; decide,
    (c4_path_correctness.2.2 "proj" none "styles/index.css"
      (by unfold locatedStylesheetShape; decide)).1,
    (c4_path_correctness.2.2 "proj" none "styles/index.css"
      (by unfold locatedStylesheetShape; decide)).2.2⟩

/-- C9: for an entry document containing `<title>Example</title>` and
`<meta name="description" content="Desc">`, extraction yields
`title = "Example"` and `description = "Desc"`; when the title element or
the description meta element is absent, the corresponding field is filled
with its default literal instead. -/
theorem c9_extraction :
    (docTitle ⟨some "Example", [⟨some "description", none, some "Desc", none⟩], []⟩
          = "Example"
        ∧ docDescription ⟨some "Example", [⟨some "description", none, some "Desc", none⟩], []⟩
          = "Desc")
      ∧ (∀ doc : HtmlDoc, doc.titleText = none → docTitle doc = "My App")
      ∧ (∀ doc : HtmlDoc, (∀ m ∈ doc.metas, m.name ≠ some "description") →
          docDescription doc = "My application description") := by
  refine ⟨⟨by decide, by decide⟩, ?_, ?_⟩
  · intro doc h
    simp [docTitle, jsOrDefault, h]
  · intro doc h
    have hfind : doc.metas.find? (fun m => m.name == some "description") = none := by
      rw [List.find?_eq_none]
      intro m hm
      simp only [beq_iff_eq]
      exact h m hm
    simp [docDescription, hfind, jsOrDefault]

/-- Witness for C9's default cases at the empty document. -/
theorem c9_witness :
    docTitle ⟨none, [], []⟩ = "My App"
      ∧ docDescription ⟨none, [], []⟩ = "My application description" :=
  ⟨c9_extraction.2.1 ⟨none, [], []⟩ rfl,
    c9_extraction.2.2 ⟨none, [], []⟩ (by intro m hm; simp at hm)⟩

/-- C7: when the entry document is present but HTML parsing throws, the
error is caught and logged, the default layout is substituted, and layout
creation still completes successfully (returns `true` and writes the
layout file). -/
theorem c7_parse_error_default (rng : Nat → String) (targetDir : String) (σ : FS)
    (e html : String) (parse : String → Except String HtmlDoc)
    (h1 : fsGet σ (pjoin (pjoin targetDir "app") "layout.tsx") = none)
    (h2 : fsGet σ (pjoin (pjoin targetDir "app") "layout.jsx") = none)
    (h3 : fsGet σ (pjoin (pjoin targetDir "app") "layout.js") = none)
    (h4 : fsGet σ (pjoin targetDir "index.html") = some html)
    (h5 : parse html = .error e) :
    (createRootLayout008 parse rng targetDir σ).ret = true
      ∧ (createRootLayout008 parse rng targetDir σ).warns
          = ["Failed to parse index.html: " ++ e]
      ∧ (createRootLayout008 parse rng targetDir σ).fs
          = fsSet σ
              (pjoin (pjoin targetDir "app") ("layout." ++
                (if (fsGet σ (pjoin targetDir "tsconfig.json")).isSome then "tsx" else "jsx")))
              (defaultLayout (fsGet σ (pjoin targetDir "tsconfig.json")).isSome) := by
  simp only [createRootLayout008, h1, h2, h3, h4, h5]
  simp

/-- Witness for C7: a one-file state whose `index.html` fails to parse. -/
theorem c7_witness :
    (createRootLayout008 (fun _ => .error "boom") (fun _ => "") "t"
        [("t/index.html", "x")]).ret = true
      ∧ (createRootLayout008 (fun _ => .error "boom") (fun _ => "") "t"
          [("t/index.html", "x")]).warns = ["Failed to parse index.html: " ++ "boom"]
      ∧ (createRootLayout008 (fun _ => .error "boom") (fun _ => "") "t"
          [("t/index.html", "x")]).fs
          = fsSet [("t/index.html", "x")]
              (pjoin (pjoin "t" "app") ("layout." ++
                (if (fsGet [("t/index.html", "x")] (pjoin "t" "tsconfig.json")).isSome
                  then "tsx" else "jsx")))
              (defaultLayout
                (fsGet [("t/index.html", "x")] (pjoin "t" "tsconfig.json")).isSome) :=
  c7_parse_error_default (fun _ => "") "t" [("t/index.html", "x")] "boom" "x"
    (fun _ => .error "boom") (by decide) (by decide) (by decide) (by decide) rfl

theorem scriptLinesAux_rng_indep (rng₁ rng₂ : Nat → String) :
    ∀ (l : List ScriptTag) (k₁ k₂ : Nat),
      (∀ s ∈ l, jsTruthy s.src = true ∨ s.textContent = "") →
      scriptLinesAux rng₁ l k₁ = scriptLinesAux rng₂ l k₂ := by
  intro l
  induction l with
  | nil => intro k₁ k₂ _; rfl
  | cons s rest ih =>
    intro k₁ k₂ h
    have hs := h s (List.mem_cons_self s rest)
    have hrest : ∀ t ∈ rest, jsTruthy t.src = true ∨ t.textContent = "" :=
      fun t ht => h t (List.mem_cons_of_mem s ht)
    by_cases hsrc : jsTruthy s.src = true
    · simp only [scriptLinesAux, hsrc, if_pos]
      rw [ih k₁ k₂ hrest]
    · have htc : s.textContent = "" := hs.resolve_left hsrc
      simp only [scriptLinesAux, hsrc, htc]
      simp only [Bool.false_eq_true, if_false, ne_eq, not_true_eq_false, if_neg,
        not_false_eq_true]
      exact ih k₁ k₂ hrest

/-- C10: with no inline script of non-empty body in the head, the generated
layout text is a deterministic function of the parsed document and the
TypeScript flag; with such an inline script present, the freshly generated
script identifier can make two runs on identical inputs differ. -/
theorem c10_determinism :
    (∀ (doc : HtmlDoc) (ts : Bool) (rng₁ rng₂ : Nat → String),
        (∀ s ∈ doc.scripts, jsTruthy s.src = true ∨ s.textContent = "") →
        layoutFromDoc doc ts rng₁ = layoutFromDoc doc ts rng₂)
      ∧ layoutFromDoc ⟨none, [], [⟨none, "x"⟩]⟩ false (fun _ => "aa")
          ≠ layoutFromDoc ⟨none, [], [⟨none, "x"⟩]⟩ false (fun _ => "b") := by
  constructor
  · intro doc ts rng₁ rng₂ h
    simp only [layoutFromDoc, scriptLines]
    simp only [scriptLinesAux_rng_indep rng₁ rng₂ doc.scripts 0 0 h]
  · decide

/-- Witness for C10's deterministic half on a document with one external
script. -/
theorem c10_witness :
    layoutFromDoc ⟨some "T", [], [⟨some "https://x/y.js", ""⟩]⟩ true (fun _ => "aa")
      = layoutFromDoc ⟨some "T", [], [⟨some "https://x/y.js", ""⟩]⟩ true (fun _ => "b") :=
  c10_determinism.1 ⟨some "T", [], [⟨some "https://x/y.js", ""⟩]⟩ true
    (fun _ => "aa") (fun _ => "b") (by decide)

theorem hasSubL_nil (v : List Char) : hasSubL [] v = true := by
  cases v <;> simp [hasSubL, List.isPrefixOf]

theorem hasSubL_append {pat u : List Char} (v : List Char) (h : hasSubL pat u = true) :
    hasSubL pat (u ++ v) = true := by
  induction u with
  | nil =>
    simp [hasSubL] at h
    rw [h]
    exact hasSubL_nil v
  | cons c cs ih =>
    simp only [hasSubL, Bool.or_eq_true] at h
    rcases h with h | h
    · simp only [List.cons_append, hasSubL, Bool.or_eq_true]
      left
      rw [List.isPrefixOf_iff_prefix] at h ⊢
      exact h.trans (List.prefix_append (c :: cs) v)
    · simp only [List.cons_append, hasSubL, Bool.or_eq_true]
      right
      exact ih h

/-- `'  openGraph: {... images: [...']...'` always contains `images:`. -/
theorem ogImagePush_has_images (s : String) : strHas (ogImagePush s) "images:" = true := by
  show hasSubL ("images:".data)
    ((("  openGraph: \x7b\n    images: ['" ++ escSQ s) ++ "']\n  \x7d,").data) = true
  rw [String.data_append, String.data_append]
  exact hasSubL_append _ (hasSubL_append _ (by decide))

theorem dropWhile_cons_false {p : Char → Bool} {c : Char} {l : List Char}
    (h : p c = false) : List.dropWhile p (c :: l) = c :: l := by
  simp [List.dropWhile, h]

/-- trimming the pushed openGraph entry leaves text starting `openGraph:`. -/
theorem ogImagePush_trim_starts (s : String) :
    strStarts (jsTrim (ogImagePush s)) "openGraph:" = true := by
  have hdata : (ogImagePush s).data
      = ' ' :: ' ' :: (("openGraph: \x7b\n    images: ['" : String).data
          ++ ((escSQ s).data ++ ("']\n  \x7d," : String).data)) := by
    show ((("  openGraph: \x7b\n    images: ['" ++ escSQ s) ++ "']\n  \x7d,").data) = _
    rw [String.data_append, String.data_append]
    rw [show (("  openGraph: \x7b\n    images: ['" : String)).data
      = ' ' :: ' ' :: (("openGraph: \x7b\n    images: ['" : String)).data from by decide]
    simp
  have hO : (("openGraph: \x7b\n    images: ['" : String)).data
      = 'o' :: (("penGraph: \x7b\n    images: ['" : String)).data := by decide
  have hstep1 : (ogImagePush s).data.dropWhile jsIsSpace
      = (("openGraph: \x7b\n    images: ['" : String)).data
          ++ ((escSQ s).data ++ ("']\n  \x7d," : String).data) := by
    rw [hdata]
    rw [List.dropWhile_cons_of_pos (by decide), List.dropWhile_cons_of_pos (by decide)]
    rw [hO, List.cons_append]
    exact dropWhile_cons_false (by decide)
  have hrev : ((ogImagePush s).data.dropWhile jsIsSpace).reverse
      = ',' :: (("']\n  \x7d" : String).data.reverse
          ++ ((escSQ s).data.reverse
            ++ (("openGraph: \x7b\n    images: ['" : String)).data.reverse)) := by
    rw [hstep1]
    rw [List.reverse_append, List.reverse_append]
    rw [show (("']\n  \x7d," : String)).data.reverse
      = ',' :: (("']\n  \x7d" : String)).data.reverse from by decide]
    simp
  rw [jsTrim]
  show strStarts ⟨_⟩ "openGraph:" = true
  rw [hrev]
  rw [dropWhile_cons_false (by decide)]
  rw [← hrev, List.reverse_reverse, hstep1]
  rw [strStarts_iff]
  show ("openGraph:" : String).data <+: _
  have : ("openGraph:" : String).data <+: (("openGraph: \x7b\n    images: ['" : String)).data :=
    by decide
  exact this.trans (List.prefix_append _ _)

/-- Counterexample to C1: for a head carrying
`<meta property="og:image" content="a.png">` followed by
`<meta property="og:image" content="b.png">`, the extracted metadata keeps
only the first image — the generated text never mentions `b.png`, so the
`openGraph.images` list does not contain both values. -/
theorem c1_counterexample :
    metadataContent ⟨none, [⟨none, some "og:image", some "a.png", none⟩,
        ⟨none, some "og:image", some "b.png", none⟩], []⟩
      = ["  title: 'My App',", "  description: 'My application description',",
          "  openGraph: \x7b\n    images: ['a.png']\n  \x7d,"]
      ∧ strHas (String.intercalate "\n"
          (metadataContent ⟨none, [⟨none, some "og:image", some "a.png", none⟩,
            ⟨none, some "og:image", some "b.png", none⟩], []⟩)) "a.png" = true
      ∧ strHas (String.intercalate "\n"
          (metadataContent ⟨none, [⟨none, some "og:image", some "a.png", none⟩,
            ⟨none, some "og:image", some "b.png", none⟩], []⟩)) "b.png" = false := by
  refine ⟨by decide, by decide, by decide⟩

/-- C1 (amended): for two `og:image` metas the extraction produces a single
`openGraph` entry whose `images` list holds only the first value; the later
duplicate is dropped (neither appended nor overwritten). -/
theorem c1_amended (s₁ s₂ : String) (h : s₁ ≠ "") :
    metadataContent ⟨none, [⟨none, some "og:image", some s₁, none⟩,
        ⟨none, some "og:image", some s₂, none⟩], []⟩
      = ["  title: 'My App',", "  description: 'My application description',",
          ogImagePush s₁] := by
  have hp1 : strStarts (jsTrim "  title: 'My App',") "openGraph:" = false := by decide
  have hp2 : strStarts (jsTrim "  description: 'My application description',")
      "openGraph:" = false := by decide
  have hT : titleLine ⟨none, [⟨none, some "og:image", some s₁, none⟩,
      ⟨none, some "og:image", some s₂, none⟩], []⟩ = "  title: 'My App'," := by
    simp only [titleLine, docTitle, jsOrDefault]
    decide
  have hfind : ([⟨none, some "og:image", some s₁, none⟩,
      ⟨none, some "og:image", some s₂, none⟩] : List MetaTag).find?
        (fun m => m.name == some "description") = none := rfl
  have hog : strStarts "og:image" "og:" = true := by decide
  have hdrop : strDropL "og:image" 3 = "image" := by decide
  have hD : descLine ⟨none, [⟨none, some "og:image", some s₁, none⟩,
      ⟨none, some "og:image", some s₂, none⟩], []⟩
      = "  description: 'My application description'," := by
    simp only [descLine, docDescription, hfind]
    decide
  simp only [metadataContent, hT, hD, List.foldl_cons, List.foldl_nil]
  have e1 : processMeta ["  title: 'My App',", "  description: 'My application description',"]
      ⟨none, some "og:image", some s₁, none⟩
      = ["  title: 'My App',", "  description: 'My application description',",
          ogImagePush s₁] := by
    simp [processMeta, jsTruthy, h, hog, hdrop, findOgEntry, findIdxO, hp1, hp2, ogImagePush]
  rw [e1]
  by_cases hs₂ : s₂ = ""
  · subst hs₂
    simp [processMeta, jsTruthy]
  · simp [processMeta, jsTruthy, hs₂, hog, hdrop, findOgEntry, findIdxO, hp1, hp2,
      ogImagePush_trim_starts s₁, List.getD, ogImagePush_has_images s₁]

/-- Witness for the amended C1 at concrete image contents. -/
theorem c1_witness :
    metadataContent ⟨none, [⟨none, some "og:image", some "a.png", none⟩,
        ⟨none, some "og:image", some "c.png", none⟩], []⟩
      = ["  title: 'My App',", "  description: 'My application description',",
          ogImagePush "a.png"] :=
  c1_amended "a.png" "c.png" (by decide)

/-- Counterexample to C5: the claim's slug description omits the script
extension filter.  For a pages directory listing `["notes.txt"]` the code
produces only the root entry, while the claim's description of
`staticSlugs` (exclude only `_`-prefixed and index filenames) would also
keep `notes`. -/
theorem c5_counterexample :
    slugsCode (some (.ok ["notes.txt"])) = [[""]]
      ∧ slugsSpecClaim ["notes.txt"] = [["notes"], [""]]
      ∧ slugsCode (some (.ok ["notes.txt"])) ≠ slugsSpecClaim ["notes.txt"] :=
  ⟨by decide, by decide, by decide⟩

/-- C5 (amended): under the router the catch-all page's `staticSlugs` are
the lower-cased, extension-stripped basenames of the pages-directory files
that carry a script extension (`.jsx`/`.tsx`/`.js`/`.ts`), excluding
`_`-prefixed and conventional index filenames, in listing order, followed
last by exactly one root entry; the root entry is present regardless of
discovery results, including a missing or unreadable pages directory. -/
theorem c5_amended :
    (∀ l : List String, slugsCode (some (.ok l))
        = (l.filter isPageFile).map (fun f => [slugName f]) ++ [[""]])
      ∧ slugsCode none = [[""]]
      ∧ (∀ e : String, slugsCode (some (.error e)) = [[""]])
      ∧ (∀ r : Option (Except String (List String)), (slugsCode r).getLast? = some [""]) := by
  have h1 : ∀ l : List String, slugsCode (some (.ok l))
      = (l.filter isPageFile).map (fun f => [slugName f]) ++ [[""]] := by
    intro l
    by_cases hl : (l.filter isPageFile).map (fun f => [slugName f]) = []
    · simp [slugsCode, hl]
    · have hpos : 0 < ((l.filter isPageFile).map (fun f => [slugName f])).length :=
        List.length_pos.mpr hl
      simp [slugsCode, hpos]
  refine ⟨h1, rfl, fun _ => rfl, ?_⟩
  intro r
  match r with
  | none => rfl
  | some (.error e) => rfl
  | some (.ok l) => rw [h1 l, List.getLast?_concat]

/-- Counterexample to C6: the candidate list is case-sensitive and omits
`App.ts` (a project whose only component file is `src/App.ts` yields
NotFound), and the directory exclusions are anchored at the search root, so
a nested `node_modules` file is returned rather than excluded. -/
theorem c6_counterexample :
    findAppComponent ["src/App.ts"] (fun _ => none) "t" = none
      ∧ findAppComponent ["foo/node_modules/App.jsx"] (fun _ => none) "t"
          = some "foo/node_modules/App.jsx" :=
  ⟨by decide, by decide⟩

theorem goAppPats_none_iff (files : List String) : ∀ pats : List String,
    goAppPats files pats = none
      ↔ ∀ f ∈ files, globIgnored f = true ∨ basenameStr f ∉ pats := by
  intro pats
  induction pats with
  | nil =>
    constructor
    · intro _ f _
      right
      simp
    · intro _
      rfl
  | cons p rest ih =>
    cases hm : globMatches p files with
    | nil =>
      have hall : ∀ f ∈ files, ¬(!globIgnored f && basenameStr f == p) = true := by
        rw [← List.filter_eq_nil_iff]
        exact hm
      constructor
      · intro hnone f hf
        have h2 : goAppPats files rest = none := by
          simpa [goAppPats, hm] using hnone
        rcases (ih.mp h2) f hf with h | h
        · exact Or.inl h
        · cases hign : globIgnored f with
          | true => exact Or.inl rfl
          | false =>
            right
            intro hmem
            rcases List.mem_cons.mp hmem with hp | hp
            · exact hall f hf (by simp [hign, hp])
            · exact h hp
      · intro hf
        simp only [goAppPats, hm]
        apply ih.mpr
        intro f hfin
        rcases hf f hfin with h | h
        · exact Or.inl h
        · exact Or.inr (fun hmem => h (List.mem_cons_of_mem p hmem))
    | cons f fs =>
      have hf : f ∈ globMatches p files := by
        rw [hm]
        exact List.mem_cons_self f fs
      have hmem := List.mem_filter.mp hf
      constructor
      · intro hnone
        simp [goAppPats, hm] at hnone
      · intro hall
        rcases hall f hmem.1 with h | h
        · have := hmem.2
          rw [Bool.and_eq_true, Bool.not_eq_true'] at this
          rw [this.1] at h
          cases h
        · exfalso
          apply h
          have := hmem.2
          rw [Bool.and_eq_true, beq_iff_eq] at this
          rw [this.2]
          exact List.mem_cons_self p rest

theorem goAppPats_some (files : List String) : ∀ (pats : List String) (f : String),
    goAppPats files pats = some f →
      globIgnored f = false ∧ basenameStr f ∈ pats ∧ f ∈ files := by
  intro pats
  induction pats with
  | nil => intro f h; simp [goAppPats] at h
  | cons p rest ih =>
    intro f h
    cases hm : globMatches p files with
    | nil =>
      rw [goAppPats, hm] at h
      rcases ih f h with ⟨h1, h2, h3⟩
      exact ⟨h1, List.mem_cons_of_mem p h2, h3⟩
    | cons g gs =>
      rw [goAppPats, hm] at h
      have hg : g = f := by simpa using h
      subst hg
      have hgm : g ∈ globMatches p files := by
        rw [hm]
        exact List.mem_cons_self g gs
      have hmem := List.mem_filter.mp hgm
      have hp := hmem.2
      rw [Bool.and_eq_true, Bool.not_eq_true', beq_iff_eq] at hp
      exact ⟨hp.1, by rw [hp.2]; exact List.mem_cons_self p rest, hmem.1⟩

/-- C6 (amended): `findAppComponent` scans a case-sensitive candidate list
(`App.jsx`, `App.tsx`, `App.js`, `app.jsx`, `app.tsx`, `app.js`, `app.ts`
— `App.ts` is absent) in priority order, excluding only the top-level
`node_modules`/`.git`/`dist`/`.next`/`app` directories; the first match
wins, and when no candidate and no entry-script fallback matches it
returns `null` rather than raising. -/
theorem c6_amended (files : List String) (contents : String → Option String)
    (targetDir : String) :
    (goAppPats files appFilePatterns = none
        ↔ ∀ f ∈ files, globIgnored f = true ∨ basenameStr f ∉ appFilePatterns)
      ∧ (goAppPats files appFilePatterns = none →
          goMainPats files contents targetDir mainFilePatterns = none →
          findAppComponent files contents targetDir = none)
      ∧ (∀ f, goAppPats files appFilePatterns = some f →
          findAppComponent files contents targetDir = some f
            ∧ globIgnored f = false ∧ basenameStr f ∈ appFilePatterns ∧ f ∈ files) := by
  refine ⟨goAppPats_none_iff files appFilePatterns, ?_, ?_⟩
  · intro h1 h2
    simp [findAppComponent, h1, h2]
  · intro f h
    have hs := goAppPats_some files appFilePatterns f h
    exact ⟨by simp [findAppComponent, h], hs.1, hs.2.1, hs.2.2⟩

/-- Witness for the amended C6: a single-candidate tree. -/
theorem c6_witness :
    findAppComponent ["x/App.tsx"] (fun _ => none) "t" = some "x/App.tsx"
      ∧ globIgnored "x/App.tsx" = false
      ∧ basenameStr "x/App.tsx" ∈ appFilePatterns
      ∧ "x/App.tsx" ∈ ["x/App.tsx"] :=
  (c6_amended ["x/App.tsx"] (fun _ => none) "t").2.2 "x/App.tsx" (by decide)

/-! ## File-system lemmas and path distinctness -/

theorem fsGet_set_self (σ : FS) (p c : String) : fsGet (fsSet σ p c) p = some c := by
  simp [fsGet, fsSet]

theorem fsGet_set_ne (σ : FS) {p q : String} (c : String) (h : p ≠ q) :
    fsGet (fsSet σ p c) q = fsGet σ q := by
  simp [fsGet, fsSet, h]

/-- two appends with constant suffixes that disagree on their last `n`
characters are distinct, whatever the prefixes. -/
theorem append_ne_of_rev_take_ne (c d : String) (n : Nat)
    (hc : n ≤ c.data.length) (hd : n ≤ d.data.length)
    (hne : c.data.reverse.take n ≠ d.data.reverse.take n) :
    ∀ a b : String, a ++ c ≠ b ++ d := by
  intro a b heq
  apply hne
  have h1 : (a ++ c).data = (b ++ d).data := by rw [heq]
  rw [String.data_append, String.data_append] at h1
  have h2 := congrArg List.reverse h1
  rw [List.reverse_append, List.reverse_append] at h2
  have h3 := congrArg (List.take n) h2
  rw [List.take_append_of_le_length (by simpa using hc),
    List.take_append_of_le_length (by simpa using hd)] at h3
  exact h3

theorem pjoin_ne {A B : String} (c d : String) (n : Nat) (hc : n ≤ c.data.length)
    (hd : n ≤ d.data.length) (hne : c.data.reverse.take n ≠ d.data.reverse.take n) :
    pjoin A c ≠ pjoin B d :=
  append_ne_of_rev_take_ne c d n hc hd hne (A ++ "/") (B ++ "/")

/-! ## Emitter step behavior -/

theorem layout007_skip {targetDir : String} {setup : ProjectSetup}
    {globalCss : Option String} {srcDirExists : Bool} {σ : FS}
    (h : (fsGet σ (pjoin (appDirOf targetDir setup.customAppDir)
      ("layout." ++ (if setup.usesTypeScript then "tsx" else "jsx")))).isSome = true) :
    createRootLayout007 targetDir setup globalCss srcDirExists σ
      = ⟨σ, [], true, [], true⟩ := by
  simp only [createRootLayout007]
  rw [if_pos h]

/-- reads at a path other than `src/types/global.d.ts` are unaffected by the
type-declarations step. -/
theorem fsGet_typeDecls (targetDir : String) (srcE : Bool) (σ1 : FS) (q : String)
    (hq : pjoin (pjoin (pjoin targetDir "src") "types") "global.d.ts" ≠ q) :
    fsGet (createTypeDeclarations targetDir srcE σ1).1 q = fsGet σ1 q := by
  simp only [createTypeDeclarations]
  cases srcE with
  | false => simp
  | true =>
    simp only [Bool.not_true, Bool.false_eq_true, if_false]
    split
    · rfl
    · exact fsGet_set_ne _ _ hq

theorem layout007_post (targetDir : String) (setup : ProjectSetup)
    (globalCss : Option String) (srcDirExists : Bool) (σ : FS) :
    (fsGet (createRootLayout007 targetDir setup globalCss srcDirExists σ).fs
      (pjoin (appDirOf targetDir setup.customAppDir)
        ("layout." ++ (if setup.usesTypeScript then "tsx" else "jsx")))).isSome = true := by
  by_cases h : (fsGet σ (pjoin (appDirOf targetDir setup.customAppDir)
      ("layout." ++ (if setup.usesTypeScript then "tsx" else "jsx")))).isSome = true
  · rw [layout007_skip h]
    exact h
  · simp only [createRootLayout007]
    rw [if_neg h]
    cases hts : setup.usesTypeScript with
    | false =>
      simp only [hts, Bool.false_eq_true, if_false]
      rw [fsGet_set_self]
      rfl
    | true =>
      simp only [hts, if_true]
      rw [fsGet_typeDecls _ _ _ _
        (pjoin_ne "global.d.ts" ("layout." ++ "tsx") 4 (by decide) (by decide) (by decide))]
      rw [fsGet_set_self]
      rfl

theorem entry_nonrouter_skip {targetDir : String} {setup : ProjectSetup}
    {locator : Option String} {pages : Option (Except String (List String))} {σ : FS}
    (hr : setup.usesReactRouter = false)
    (h : (fsGet σ (pjoin (appDirOf targetDir setup.customAppDir)
      ("page." ++ (if setup.usesTypeScript then "tsx" else "jsx")))).isSome = true) :
    createEntrypoint targetDir setup locator pages σ = ⟨σ, [], true, [], true⟩ := by
  simp only [createEntrypoint, hr, Bool.false_eq_true, if_false]
  rw [if_pos h]

theorem catchAll_skip {appDir ext : String} {locator : Option String}
    {pages : Option (Except String (List String))} {σ : FS}
    (h : ((fsGet σ (pjoin (pjoin appDir "[[...slug]]") ("page." ++ ext))).isSome
      && (fsGet σ (pjoin (pjoin appDir "[[...slug]]") ("client." ++ ext))).isSome) = true) :
    createCatchAllPage appDir ext locator pages σ = ⟨σ, [], true, [], true⟩ := by
  simp only [createCatchAllPage]
  rw [if_pos h]

theorem catchAll_post {appDir ext : String} {locator : Option String}
    {pages : Option (Except String (List String))} {σ : FS}
    (hne : pjoin (pjoin appDir "[[...slug]]") ("page." ++ ext)
      ≠ pjoin (pjoin appDir "[[...slug]]") ("client." ++ ext)) :
    ((fsGet (createCatchAllPage appDir ext locator pages σ).fs
        (pjoin (pjoin appDir "[[...slug]]") ("page." ++ ext))).isSome
      && (fsGet (createCatchAllPage appDir ext locator pages σ).fs
        (pjoin (pjoin appDir "[[...slug]]") ("client." ++ ext))).isSome) = true := by
  simp only [createCatchAllPage]
  split
  case isTrue h => simpa using h
  case isFalse h =>
    simp [fsGet_set_self, fsGet_set_ne _ _ hne]

theorem entry_post (targetDir : String) (setup : ProjectSetup) (locator : Option String)
    (pages : Option (Except String (List String))) (σ : FS) :
    (setup.usesReactRouter = false →
        (fsGet (createEntrypoint targetDir setup locator pages σ).fs
          (pjoin (appDirOf targetDir setup.customAppDir)
            ("page." ++ (if setup.usesTypeScript then "tsx" else "jsx")))).isSome = true)
      ∧ (setup.usesReactRouter = true →
          ((fsGet (createEntrypoint targetDir setup locator pages σ).fs
              (pjoin (pjoin (appDirOf targetDir setup.customAppDir) "[[...slug]]")
                ("page." ++ (if setup.usesTypeScript then "tsx" else "jsx")))).isSome
            && (fsGet (createEntrypoint targetDir setup locator pages σ).fs
              (pjoin (pjoin (appDirOf targetDir setup.customAppDir) "[[...slug]]")
                ("client." ++ (if setup.usesTypeScript then "tsx" else "jsx")))).isSome)
            = true) := by
  constructor
  · intro hr
    simp only [createEntrypoint, hr, Bool.false_eq_true, if_false]
    cases hts : setup.usesTypeScript with
    | true =>
      simp only [hts, if_true]
      split
      case isTrue h => simpa using h
      case isFalse h =>
        cases locator with
        | some p => simp [fsGet_set_self]
        | none => simp [fsGet_set_self]
    | false =>
      simp only [hts, Bool.false_eq_true, if_false]
      split
      case isTrue h => simpa using h
      case isFalse h =>
        cases locator with
        | some p => simp [fsGet_set_self]
        | none => simp [fsGet_set_self]
  · intro hr
    simp only [createEntrypoint, hr, if_true]
    cases hts : setup.usesTypeScript with
    | true =>
      simp only [hts, if_true]
      exact catchAll_post (pjoin_ne ("page." ++ "tsx") ("client." ++ "tsx") 5
        (by decide) (by decide) (by decide))
    | false =>
      simp only [hts, Bool.false_eq_true, if_false]
      exact catchAll_post (pjoin_ne ("page." ++ "jsx") ("client." ++ "jsx") 5
        (by decide) (by decide) (by decide))

theorem entry_preserves (targetDir : String) (setup : ProjectSetup)
    (locator : Option String) (pages : Option (Except String (List String)))
    (σ : FS) (q : String)
    (h1 : pjoin (appDirOf targetDir setup.customAppDir)
      ("page." ++ (if setup.usesTypeScript then "tsx" else "jsx")) ≠ q)
    (h2 : pjoin (pjoin (appDirOf targetDir setup.customAppDir) "[[...slug]]")
      ("page." ++ (if setup.usesTypeScript then "tsx" else "jsx")) ≠ q)
    (h3 : pjoin (pjoin (appDirOf targetDir setup.customAppDir) "[[...slug]]")
      ("client." ++ (if setup.usesTypeScript then "tsx" else "jsx")) ≠ q) :
    fsGet (createEntrypoint targetDir setup locator pages σ).fs q = fsGet σ q := by
  cases hr : setup.usesReactRouter with
  | true =>
    simp only [createEntrypoint, hr, if_true]
    simp only [createCatchAllPage]
    cases hts : setup.usesTypeScript with
    | true =>
      simp only [hts, if_true] at h2 h3 ⊢
      split
      · rfl
      · rw [fsGet_set_ne _ _ h2, fsGet_set_ne _ _ h3]
    | false =>
      simp only [hts, Bool.false_eq_true, if_false] at h2 h3 ⊢
      split
      · rfl
      · rw [fsGet_set_ne _ _ h2, fsGet_set_ne _ _ h3]
  | false =>
    simp only [createEntrypoint, hr, Bool.false_eq_true, if_false]
    cases hts : setup.usesTypeScript with
    | true =>
      simp only [hts, if_true] at h1 ⊢
      split
      · rfl
      · cases locator with
        | some p => exact fsGet_set_ne _ _ h1
        | none => exact fsGet_set_ne _ _ h1
    | false =>
      simp only [hts, Bool.false_eq_true, if_false] at h1 ⊢
      split
      · rfl
      · cases locator with
        | some p => exact fsGet_set_ne _ _ h1
        | none => exact fsGet_set_ne _ _ h1

theorem entry_router_skip {targetDir : String} {setup : ProjectSetup}
    {locator : Option String} {pages : Option (Except String (List String))} {σ : FS}
    (hr : setup.usesReactRouter = true)
    (h : ((fsGet σ (pjoin (pjoin (appDirOf targetDir setup.customAppDir) "[[...slug]]")
        ("page." ++ (if setup.usesTypeScript then "tsx" else "jsx")))).isSome
      && (fsGet σ (pjoin (pjoin (appDirOf targetDir setup.customAppDir) "[[...slug]]")
        ("client." ++ (if setup.usesTypeScript then "tsx" else "jsx")))).isSome) = true) :
    createEntrypoint targetDir setup locator pages σ = ⟨σ, [], true, [], true⟩ := by
  simp only [createEntrypoint, hr, if_true]
  exact catchAll_skip h

theorem layout008_skip {parse : String → Except String HtmlDoc} {rng : Nat → String}
    {targetDir : String} {σ : FS}
    (h : ((fsGet σ (pjoin (pjoin targetDir "app") "layout.tsx")).isSome
      || (fsGet σ (pjoin (pjoin targetDir "app") "layout.jsx")).isSome
      || (fsGet σ (pjoin (pjoin targetDir "app") "layout.js")).isSome) = true) :
    createRootLayout008 parse rng targetDir σ = ⟨σ, [], true, [], true⟩ := by
  simp only [createRootLayout008]
  rw [if_pos h]

theorem layout008_post (parse : String → Except String HtmlDoc) (rng : Nat → String)
    (targetDir : String) (σ : FS) :
    ((fsGet (createRootLayout008 parse rng targetDir σ).fs
        (pjoin (pjoin targetDir "app") "layout.tsx")).isSome
      || (fsGet (createRootLayout008 parse rng targetDir σ).fs
        (pjoin (pjoin targetDir "app") "layout.jsx")).isSome
      || (fsGet (createRootLayout008 parse rng targetDir σ).fs
        (pjoin (pjoin targetDir "app") "layout.js")).isSome) = true := by
  by_cases h : ((fsGet σ (pjoin (pjoin targetDir "app") "layout.tsx")).isSome
      || (fsGet σ (pjoin (pjoin targetDir "app") "layout.jsx")).isSome
      || (fsGet σ (pjoin (pjoin targetDir "app") "layout.js")).isSome) = true
  · rw [layout008_skip h]
    exact h
  · simp only [createRootLayout008]
    rw [if_neg h]
    cases hts : (fsGet σ (pjoin targetDir "tsconfig.json")).isSome with
    | true =>
      simp only [hts, if_true]
      rw [show ("layout." ++ "tsx" : String) = "layout.tsx" from by decide]
      rw [fsGet_set_self]
      simp
    | false =>
      simp only [hts, Bool.false_eq_true, if_false]
      rw [show ("layout." ++ "jsx" : String) = "layout.jsx" from by decide]
      rw [fsGet_set_self]
      simp

/-- C8: running the emitter pipeline (per-setup root layout, then entry
point) a second time against the state produced by the first run changes no
file, performs zero writes, and reports both steps as skipped; likewise for
the `index.html`-driven root-layout creator. -/
theorem c8_idempotent (targetDir : String) (setup : ProjectSetup)
    (globalCss : Option String) (srcDirExists : Bool) (locator : Option String)
    (pages : Option (Except String (List String))) (σ : FS)
    (parse : String → Except String HtmlDoc) (rng : Nat → String)
    (targetDir8 : String) (σ8 : FS) :
    (runPipeline targetDir setup globalCss srcDirExists locator pages
        (runPipeline targetDir setup globalCss srcDirExists locator pages σ).2.fs).1
      = ⟨(runPipeline targetDir setup globalCss srcDirExists locator pages σ).2.fs,
          [], true, [], true⟩
    ∧ (runPipeline targetDir setup globalCss srcDirExists locator pages
        (runPipeline targetDir setup globalCss srcDirExists locator pages σ).2.fs).2
      = ⟨(runPipeline targetDir setup globalCss srcDirExists locator pages σ).2.fs,
          [], true, [], true⟩
    ∧ createRootLayout008 parse rng targetDir8
        (createRootLayout008 parse rng targetDir8 σ8).fs
      = ⟨(createRootLayout008 parse rng targetDir8 σ8).fs, [], true, [], true⟩ := by
  have h1 : pjoin (appDirOf targetDir setup.customAppDir)
      ("page." ++ (if setup.usesTypeScript then "tsx" else "jsx"))
      ≠ pjoin (appDirOf targetDir setup.customAppDir)
        ("layout." ++ (if setup.usesTypeScript then "tsx" else "jsx")) := by
    cases setup.usesTypeScript with
    | true => exact pjoin_ne _ _ 5 (by decide) (by decide) (by decide)
    | false => exact pjoin_ne _ _ 5 (by decide) (by decide) (by decide)
  have h2 : pjoin (pjoin (appDirOf targetDir setup.customAppDir) "[[...slug]]")
      ("page." ++ (if setup.usesTypeScript then "tsx" else "jsx"))
      ≠ pjoin (appDirOf targetDir setup.customAppDir)
        ("layout." ++ (if setup.usesTypeScript then "tsx" else "jsx")) := by
    cases setup.usesTypeScript with
    | true => exact pjoin_ne _ _ 5 (by decide) (by decide) (by decide)
    | false => exact pjoin_ne _ _ 5 (by decide) (by decide) (by decide)
  have h3 : pjoin (pjoin (appDirOf targetDir setup.customAppDir) "[[...slug]]")
      ("client." ++ (if setup.usesTypeScript then "tsx" else "jsx"))
      ≠ pjoin (appDirOf targetDir setup.customAppDir)
        ("layout." ++ (if setup.usesTypeScript then "tsx" else "jsx")) := by
    cases setup.usesTypeScript with
    | true => exact pjoin_ne _ _ 6 (by decide) (by decide) (by decide)
    | false => exact pjoin_ne _ _ 6 (by decide) (by decide) (by decide)
  have hL1 := layout007_post targetDir setup globalCss srcDirExists σ
  have hLpres : (fsGet (runPipeline targetDir setup globalCss srcDirExists locator pages
      σ).2.fs (pjoin (appDirOf targetDir setup.customAppDir)
        ("layout." ++ (if setup.usesTypeScript then "tsx" else "jsx")))).isSome = true := by
    show (fsGet (createEntrypoint targetDir setup locator pages
      (createRootLayout007 targetDir setup globalCss srcDirExists σ).fs).fs _).isSome = true
    rw [entry_preserves targetDir setup locator pages _ _ h1 h2 h3]
    exact hL1
  have hskip2 : createRootLayout007 targetDir setup globalCss srcDirExists
      (runPipeline targetDir setup globalCss srcDirExists locator pages σ).2.fs
      = ⟨(runPipeline targetDir setup globalCss srcDirExists locator pages σ).2.fs,
          [], true, [], true⟩ := layout007_skip hLpres
  refine ⟨hskip2, ?_, ?_⟩
  · show createEntrypoint targetDir setup locator pages
      (createRootLayout007 targetDir setup globalCss srcDirExists
        (runPipeline targetDir setup globalCss srcDirExists locator pages σ).2.fs).fs = _
    rw [hskip2]
    cases hr : setup.usesReactRouter with
    | false =>
      exact entry_nonrouter_skip hr
        ((entry_post targetDir setup locator pages
          (createRootLayout007 targetDir setup globalCss srcDirExists σ).fs).1 hr)
    | true =>
      exact entry_router_skip hr
        ((entry_post targetDir setup locator pages
          (createRootLayout007 targetDir setup globalCss srcDirExists σ).fs).2 hr)
  · exact layout008_skip (layout008_post parse rng targetDir8 σ8)

/-- Counterexample to C2: the catch-all creator checks its two files
jointly.  With `page.tsx` already present (contents `OLD`) but `client.tsx`
absent, the run is not reported as skipped, performs writes, and replaces
the existing page file's contents. -/
theorem c2_counterexample :
    fsGet [("t/src/app/[[...slug]]/page.tsx", "OLD")] "t/src/app/[[...slug]]/page.tsx"
        = some "OLD"
      ∧ (createEntrypoint "t" ⟨true, true, "none", none⟩ none (some (.ok []))
          [("t/src/app/[[...slug]]/page.tsx", "OLD")]).skipped = false
      ∧ (createEntrypoint "t" ⟨true, true, "none", none⟩ none (some (.ok []))
          [("t/src/app/[[...slug]]/page.tsx", "OLD")]).written ≠ []
      ∧ fsGet (createEntrypoint "t" ⟨true, true, "none", none⟩ none (some (.ok []))
          [("t/src/app/[[...slug]]/page.tsx", "OLD")]).fs "t/src/app/[[...slug]]/page.tsx"
          ≠ some "OLD" :=
  ⟨by decide, by decide, by decide, by decide⟩

/-- C2 (amended): the `index.html`-driven layout creator checks all three
extension variants and skips without touching the state; the per-setup
layout creator and the non-router page creator check the file with the
selected extension and skip likewise; the catch-all creator checks its page
and client files jointly and skips only when both exist — otherwise it
writes both, overwriting an existing one. -/
theorem c2_amended :
    (∀ (parse : String → Except String HtmlDoc) (rng : Nat → String)
        (targetDir : String) (σ : FS),
        ((fsGet σ (pjoin (pjoin targetDir "app") "layout.tsx")).isSome
          || (fsGet σ (pjoin (pjoin targetDir "app") "layout.jsx")).isSome
          || (fsGet σ (pjoin (pjoin targetDir "app") "layout.js")).isSome) = true →
        createRootLayout008 parse rng targetDir σ = ⟨σ, [], true, [], true⟩)
      ∧ (∀ (targetDir : String) (setup : ProjectSetup) (globalCss : Option String)
          (srcDirExists : Bool) (σ : FS),
          (fsGet σ (pjoin (appDirOf targetDir setup.customAppDir)
            ("layout." ++ (if setup.usesTypeScript then "tsx" else "jsx")))).isSome = true →
          createRootLayout007 targetDir setup globalCss srcDirExists σ
            = ⟨σ, [], true, [], true⟩)
      ∧ (∀ (targetDir : String) (setup : ProjectSetup) (locator : Option String)
          (pages : Option (Except String (List String))) (σ : FS),
          setup.usesReactRouter = false →
          (fsGet σ (pjoin (appDirOf targetDir setup.customAppDir)
            ("page." ++ (if setup.usesTypeScript then "tsx" else "jsx")))).isSome = true →
          createEntrypoint targetDir setup locator pages σ = ⟨σ, [], true, [], true⟩)
      ∧ (∀ (targetDir : String) (setup : ProjectSetup) (locator : Option String)
          (pages : Option (Except String (List String))) (σ : FS),
          setup.usesReactRouter = true →
          ((fsGet σ (pjoin (pjoin (appDirOf targetDir setup.customAppDir) "[[...slug]]")
              ("page." ++ (if setup.usesTypeScript then "tsx" else "jsx")))).isSome
            && (fsGet σ (pjoin (pjoin (appDirOf targetDir setup.customAppDir) "[[...slug]]")
              ("client." ++ (if setup.usesTypeScript then "tsx" else "jsx")))).isSome) = true →
          createEntrypoint targetDir setup locator pages σ = ⟨σ, [], true, [], true⟩)
      ∧ (∀ (appDir ext : String) (locator : Option String)
          (pages : Option (Except String (List String))) (σ : FS),
          ((fsGet σ (pjoin (pjoin appDir "[[...slug]]") ("page." ++ ext))).isSome
            && (fsGet σ (pjoin (pjoin appDir "[[...slug]]") ("client." ++ ext))).isSome)
              = false →
          (createCatchAllPage appDir ext locator pages σ).written
              = [pjoin (pjoin appDir "[[...slug]]") ("client." ++ ext),
                  pjoin (pjoin appDir "[[...slug]]") ("page." ++ ext)]
            ∧ fsGet (createCatchAllPage appDir ext locator pages σ).fs
                (pjoin (pjoin appDir "[[...slug]]") ("page." ++ ext))
                = some (pageContentOf (slugsCode pages))) := by
  refine ⟨fun parse rng targetDir σ h => layout008_skip h,
    fun targetDir setup globalCss srcDirExists σ h => layout007_skip h,
    fun targetDir setup locator pages σ hr h => entry_nonrouter_skip hr h,
    fun targetDir setup locator pages σ hr h => entry_router_skip hr h,
    ?_⟩
  intro appDir ext locator pages σ h
  simp only [createCatchAllPage]
  rw [if_neg (by rw [h]; simp)]
  exact ⟨rfl, fsGet_set_self _ _ _⟩

/-- Witness for the amended C2: skip behavior at concrete one-file states. -/
theorem c2_witness :
    createRootLayout008 (fun _ => .error "e") (fun _ => "") "t"
        [("t/app/layout.tsx", "KEEP")]
      = ⟨[("t/app/layout.tsx", "KEEP")], [], true, [], true⟩
    ∧ createEntrypoint "t" ⟨false, false, "none", none⟩ none none
        [("t/src/app/page.jsx", "KEEP")]
      = ⟨[("t/src/app/page.jsx", "KEEP")], [], true, [], true⟩ :=
  ⟨c2_amended.1 (fun _ => .error "e") (fun _ => "") "t" [("t/app/layout.tsx", "KEEP")]
      (by decide),
    c2_amended.2.2.1 "t" ⟨false, false, "none", none⟩ none none
      [("t/src/app/page.jsx", "KEEP")] rfl (by decide)⟩

/-- Counterexample to C3: with the router absent and component location
returning NotFound, emission completes successfully with a warning, but the
emitted page is the self-contained fallback page, which contains no import
reference at all — not a literal fallback import of a conventional default
component name. -/
theorem c3_counterexample :
    (createEntrypoint "t" ⟨false, false, "none", none⟩ none none []).ret = true
      ∧ (createEntrypoint "t" ⟨false, false, "none", none⟩ none none []).warns
          = ["Could not find App component, creating fallback page"]
      ∧ fsGet (createEntrypoint "t" ⟨false, false, "none", none⟩ none none []).fs
          "t/src/app/page.jsx" = some fallbackPageContent
      ∧ strHas fallbackPageContent "import" = false :=
  ⟨by decide, by decide, by decide, by decide⟩

/-- C3 (amended): when component location returns NotFound, entry-point
emission still returns `true` with a warning recorded; in the router branch
the client-boundary file embeds the literal fallback import `import('App')`,
while in the non-router branch the emitted page is a self-contained
fallback page with no import reference. -/
theorem c3_amended :
    (∀ (targetDir : String) (setup : ProjectSetup)
        (pages : Option (Except String (List String))) (σ : FS),
        setup.usesReactRouter = false →
        fsGet σ (pjoin (appDirOf targetDir setup.customAppDir)
          ("page." ++ (if setup.usesTypeScript then "tsx" else "jsx"))) = none →
        (createEntrypoint targetDir setup none pages σ).ret = true
          ∧ (createEntrypoint targetDir setup none pages σ).warns
              = ["Could not find App component, creating fallback page"]
          ∧ fsGet (createEntrypoint targetDir setup none pages σ).fs
              (pjoin (appDirOf targetDir setup.customAppDir)
                ("page." ++ (if setup.usesTypeScript then "tsx" else "jsx")))
              = some fallbackPageContent)
      ∧ (∀ (targetDir : String) (setup : ProjectSetup)
          (pages : Option (Except String (List String))) (σ : FS),
          setup.usesReactRouter = true →
          ((fsGet σ (pjoin (pjoin (appDirOf targetDir setup.customAppDir) "[[...slug]]")
              ("page." ++ (if setup.usesTypeScript then "tsx" else "jsx")))).isSome
            && (fsGet σ (pjoin (pjoin (appDirOf targetDir setup.customAppDir) "[[...slug]]")
              ("client." ++ (if setup.usesTypeScript then "tsx" else "jsx")))).isSome)
              = false →
          (createEntrypoint targetDir setup none pages σ).ret = true
            ∧ (createEntrypoint targetDir setup none pages σ).warns
                = ["Could not find App component file, you may need to adjust the import path manually"]
            ∧ fsGet (createEntrypoint targetDir setup none pages σ).fs
                (pjoin (pjoin (appDirOf targetDir setup.customAppDir) "[[...slug]]")
                  ("client." ++ (if setup.usesTypeScript then "tsx" else "jsx")))
                = some (clientContentOf "App"))
      ∧ strHas (clientContentOf "App") "import('App')" = true := by
  refine ⟨?_, ?_, by decide⟩
  · intro targetDir setup pages σ hr h
    simp only [createEntrypoint, hr, Bool.false_eq_true, if_false]
    rw [if_neg (by rw [h]; simp)]
    exact ⟨rfl, rfl, fsGet_set_self _ _ _⟩
  · intro targetDir setup pages σ hr h
    simp only [createEntrypoint, hr, if_true]
    simp only [createCatchAllPage]
    rw [if_neg (by rw [h]; simp)]
    refine ⟨rfl, rfl, ?_⟩
    have hne : pjoin (pjoin (appDirOf targetDir setup.customAppDir) "[[...slug]]")
        ("page." ++ (if setup.usesTypeScript then "tsx" else "jsx"))
        ≠ pjoin (pjoin (appDirOf targetDir setup.customAppDir) "[[...slug]]")
          ("client." ++ (if setup.usesTypeScript then "tsx" else "jsx")) := by
      cases setup.usesTypeScript with
      | true => exact pjoin_ne _ _ 5 (by decide) (by decide) (by decide)
      | false => exact pjoin_ne _ _ 5 (by decide) (by decide) (by decide)
    rw [fsGet_set_ne _ _ hne, fsGet_set_self]

/-- Witness for the amended C3 in both branches at concrete states. -/
theorem c3_witness :
    ((createEntrypoint "u" ⟨true, false, "none", none⟩ none none []).ret = true
        ∧ (createEntrypoint "u" ⟨true, false, "none", none⟩ none none []).warns
            = ["Could not find App component, creating fallback page"]
        ∧ fsGet (createEntrypoint "u" ⟨true, false, "none", none⟩ none none []).fs
            (pjoin (appDirOf "u" none) ("page." ++ "tsx")) = some fallbackPageContent)
      ∧ ((createEntrypoint "u" ⟨true, true, "none", none⟩ none none []).ret = true
        ∧ (createEntrypoint "u" ⟨true, true, "none", none⟩ none none []).warns
            = ["Could not find App component file, you may need to adjust the import path manually"]
        ∧ fsGet (createEntrypoint "u" ⟨true, true, "none", none⟩ none none []).fs
            (pjoin (pjoin (appDirOf "u" none) "[[...slug]]") ("client." ++ "tsx"))
            = some (clientContentOf "App")) :=
  ⟨c3_amended.1 "u" ⟨true, false, "none", none⟩ none [] rfl (by decide),
    c3_amended.2.1 "u" ⟨true, true, "none", none⟩ none [] rfl (by decide)⟩

end V2N
